import Mathlib

/-!
Verification development for the FreeNAS middleware certificate / certificate
authority plugin (`src/middlewared/middlewared/plugins/crypto.py`).

The Python plugin is shallowly embedded: datastore rows become Lean structures,
the two datastores (`system.certificate`, `system.certificateauthority`) become
lists of rows, `crypto` (pyOpenSSL) objects become symbolic values, and every
operation of interest (`get_serial_for_certificate`, the creation strategies,
`ca_sign_csr`, `do_update`, `cert_extend`) becomes an executable Lean function.
Recursions that Python performs over the mutable datastore are given an explicit
fuel parameter; a `none` / error result models a call that does not complete.
Python exceptions are modelled with `Except`; a raised `ValidationErrors` is
distinguished from other (crash-like) exceptions.
-/

namespace FreenasCrypto

/-! ## Constants (crypto.py lines 15-20) -/

def CA_TYPE_EXISTING : Nat := 0x01
def CA_TYPE_INTERNAL : Nat := 0x02
def CA_TYPE_INTERMEDIATE : Nat := 0x04
def CERT_TYPE_EXISTING : Nat := 0x08
def CERT_TYPE_INTERNAL : Nat := 0x10
def CERT_TYPE_CSR : Nat := 0x20

/-! ## Symbolic model of the pyOpenSSL objects

An X509 name is its set of components; a private key is identified by a key id
`kid` together with its bit strength and whether it is an elliptic-curve key.
A PEM-encoded private key is either unencrypted (`plain`) or encrypted under a
passphrase.  A certificate PEM payload is the list of PEM blocks matched by
`RE_CERTIFICATE`; each block either parses to a certificate or is malformed. -/

structure X509Subject where
  C : Option String := none
  ST : Option String := none
  L : Option String := none
  O : Option String := none
  CN : Option String := none
  emailAddress : Option String := none
  subjectAltName : Option String := none
deriving DecidableEq, Repr

structure PrivKey where
  kid : Nat
  bits : Nat
  isEC : Bool
deriving DecidableEq, Repr

inductive PEMKey where
  | plain (k : PrivKey)
  | encrypted (k : PrivKey) (pass : String)
deriving DecidableEq, Repr

structure X509Cert where
  subject : X509Subject
  issuer : X509Subject
  serial : Nat
  pubkey : Nat
  notBefore : Int
  notAfter : Int
  /-- digest algorithm recoverable from the signature algorithm name, as
  extracted by `load_certificate` (line 346-349); `none` when unrecognized. -/
  digest : Option String
deriving DecidableEq, Repr

inductive PEMBlock where
  | ok (c : X509Cert)
  | bad
deriving DecidableEq, Repr

/-- A certificate PEM payload: the blocks matched by `RE_CERTIFICATE`. -/
structure CertPEM where
  blocks : List PEMBlock
deriving DecidableEq, Repr

/-- A CSR PEM payload: parses to a subject and a public key, or is malformed. -/
inductive CSRPEM where
  | ok (subject : X509Subject) (pubkey : Nat)
  | bad
deriving DecidableEq, Repr

/-- `crypto.load_certificate(FILETYPE_PEM, payload)`: OpenSSL reads the first
PEM object of the buffer; a malformed or absent first block raises. -/
def pyLoadCcertificate (p : CertPEM) : Option X509Cert :=
  match p.blocks.head? with
  | some (.ok c) => some c
  | _ => none

/-- `crypto.load_certificate_request(FILETYPE_PEM, payload)`. -/
def pyLoadCertificateRequest : CSRPEM → Option (X509Subject × Nat)
  | .ok subj pk => some (subj, pk)
  | .bad => none

/-- Python truthiness of a passphrase argument: `passphrase.encode() if
passphrase else None` maps both `None` and `''` to no passphrase. -/
def effectivePass : Option String → Option String
  | none => none
  | some s => if s = "" then none else some s

/-- `load_private_key` (crypto.py lines 64-72).  OpenSSL loads an unencrypted
key whether or not a passphrase is supplied; an encrypted key loads only with
the matching passphrase.  `crypto.Error` is caught and becomes `none`. -/
def load_private_key (buffer : PEMKey) (passphrase : Option String) : Option PrivKey :=
  match buffer, effectivePass passphrase with
  | .plain k, _ => some k
  | .encrypted k q, some s => if q = s then some k else none
  | .encrypted _ _, none => none

/-- `crypto.dump_privatekey(FILETYPE_PEM, key, passphrase=...)` as called by
`export_private_key` (lines 78-82): no `cipher` argument is passed, and pyOpenSSL
writes the key unencrypted when `cipher` is `None` (the passphrase callback is
unused by `PEM_write_bio_PrivateKey` with a NULL cipher). -/
def pyDumpPrivatekey (k : PrivKey) : PEMKey := .plain k

/-- `export_private_key` (crypto.py lines 75-83): returns `None` (here `none`)
when the key does not load. -/
def export_private_key (buffer : PEMKey) (passphrase : Option String) : Option PEMKey :=
  (load_private_key buffer passphrase).map pyDumpPrivatekey

/-! ## Datastore rows

Both datastores share one row shape (the Django models are identical in the
fields this plugin reads/writes).  `Option` fields model SQL NULL and, for the
string-like fields the plugin only ever tests for truthiness, the empty string
as well. -/

structure Row where
  id : Nat
  name : String
  type : Nat
  certificate : Option CertPEM := none
  privatekey : Option PEMKey := none
  CSR : Option CSRPEM := none
  signedby : Option Nat := none
  serial : Option Nat := none
  chain : Bool := false
  san : String := ""
  country : Option String := none
  state : Option String := none
  city : Option String := none
  organization : Option String := none
  common : Option String := none
  email : Option String := none
  digest_algorithm : Option String := none
  key_length : Option Nat := none
  lifetime : Option Nat := none
deriving DecidableEq, Repr

/-- The two datastores: `system.certificateauthority` and `system.certificate`. -/
structure Store where
  cas : List Row
  certs : List Row
deriving DecidableEq, Repr

/-- `datastore.query(ds, [('id','=',i)], {'get': True})` — first row with that id. -/
def findRow (rows : List Row) (i : Nat) : Option Row :=
  rows.find? (fun r => r.id == i)

/-! ## Serial Allocator (`get_serial_for_certificate`, crypto.py lines 783-839) -/

/-- serials of every certificate directly signed by `caId`
(`cert_serials`, lines 792-804). -/
def certSerials (s : Store) (caId : Nat) : List (Option Nat) :=
  (s.certs.filter (fun r => r.signedby == some caId)).map (fun r => r.serial)

/-- CA rows whose `signedby` is `caId` (the child query, lines 810-818). -/
def caChildren (cas : List Row) (caId : Nat) : List Row :=
  cas.filter (fun r => r.signedby == some caId)

/-- the `for child in children: serials.extend(child_serials(child['id']))`
loop of `child_serials` (lines 820-821), parameterized by the recursive call. -/
def childSerialsMany (rec : Nat → Option (List (Option Nat))) :
    List Row → Option (List (Option Nat))
  | [] => some []
  | c :: rest =>
    match rec c.id with
    | none => none
    | some x =>
      match childSerialsMany rec rest with
      | none => none
      | some xs => some (x ++ xs)

/-- `child_serials` (crypto.py lines 808-826): for every child CA recurse, then
append the serials of certificates signed by `caId`, then `caId`'s own serial.
`fuel` bounds the recursion depth; `none` models a call that does not complete. -/
def childSerials (s : Store) : Nat → Nat → Option (List (Option Nat))
  | 0 => fun _ => none
  | f + 1 => fun caId =>
    match childSerialsMany (childSerials s f) (caChildren s.cas caId) with
    | none => none
    | some sub =>
      match findRow s.cas caId with
      | none => none
      | some own => some (sub ++ certSerials s caId ++ [own.serial])

/-- `get_serial_for_certificate` (crypto.py lines 783-839).  Walks `signedby`
up to the root, then collects `cert_serials(root) ++ child_serials(root)`,
drops falsy entries (`filter(None, ...)` removes both SQL NULL and 0), and
returns `max + 1`, or `(root serial or 0) + 1` when nothing remains. -/
def get_serial_for_certificate (s : Store) (fuel : Nat) (caId : Nat) : Option Nat :=
  match fuel with
  | 0 => none
  | f + 1 =>
    match findRow s.cas caId with
    | none => none
    | some ca =>
      match ca.signedby with
      | some parent => get_serial_for_certificate s f parent
      | none =>
        match childSerials s (f + 1) caId with
        | none => none
        | some sub =>
          if ((((certSerials s caId ++ sub).filterMap id).filter (fun n => n != 0)).isEmpty) then
            some (ca.serial.getD 0 + 1)
          else
            some (((((certSerials s caId ++ sub).filterMap id).filter
              (fun n => n != 0)).foldl Nat.max 0) + 1)

/-! ## Spec-side reading of the serial allocator (for claim C1)

The following definitions transcribe the specification's words, to be compared
with `get_serial_for_certificate` above: "letting S be the multiset of serials
of all certificates directly signed by the root plus, for every descendant CA
reachable via signedby, that CA's own serial and the serials of every
certificate it directly signed, with exactly the null/absent serials removed,
the result is the root's own recorded serial (default 0) plus 1 when S is
empty, and max(S) + 1 otherwise" — delegating upward while `signedby` is set.
"Descendant CA reachable via signedby" is read reflexively: the root reaches
itself by the empty chain. -/

def specDescendantsMany (rec : Nat → Option (List Nat)) : List Row → Option (List Nat)
  | [] => some []
  | c :: rest =>
    match rec c.id with
    | none => none
    | some d =>
      match specDescendantsMany rec rest with
      | none => none
      | some ds => some (d ++ ds)

/-- The CAs reachable from `caId` by following `signedby` edges downward,
`caId` itself included (fuel-bounded). -/
def specDescendants (cas : List Row) : Nat → Nat → Option (List Nat)
  | 0 => fun _ => none
  | f + 1 => fun caId =>
    match specDescendantsMany (specDescendants cas f) (caChildren cas caId) with
    | none => none
    | some ds => some (caId :: ds)

/-- A descendant CA's contribution to the pool: "that CA's own serial and the
serials of every certificate it directly signed". -/
def descendantContribution (s : Store) (d : Nat) : List (Option Nat) :=
  ((findRow s.cas d).bind Row.serial) :: certSerials s d

/-- The spec's serial pool for a root CA: serials of all certificates directly
signed by the root, plus every reachable CA's contribution. -/
def specSerialPool (s : Store) (fuel : Nat) (rootId : Nat) : Option (List (Option Nat)) :=
  match specDescendants s.cas fuel rootId with
  | none => none
  | some ds => some (certSerials s rootId ++ ds.flatMap (descendantContribution s))

/-- The next serial as worded by the spec: delegate upward while `signedby` is
set; at the root, remove exactly the null/absent serials from the pool and
return `max + 1`, or root serial (default 0) + 1 when the pool is empty. -/
def claimNextSerial (s : Store) (fuel : Nat) (caId : Nat) : Option Nat :=
  match fuel with
  | 0 => none
  | f + 1 =>
    match findRow s.cas caId with
    | none => none
    | some ca =>
      match ca.signedby with
      | some parent => claimNextSerial s f parent
      | none =>
        match specSerialPool s (f + 1) caId with
        | none => none
        | some pool =>
          if (pool.filterMap id).isEmpty then
            some (ca.serial.getD 0 + 1)
          else
            some ((pool.filterMap id).foldl Nat.max 0 + 1)

/-- The `signedby` walk performed by `get_serial_for_certificate` before it
reaches a root: returns the root id and the fuel left on arrival. -/
def rootWalk (cas : List Row) (fuel : Nat) (caId : Nat) : Option (Nat × Nat) :=
  match fuel with
  | 0 => none
  | f + 1 =>
    match findRow cas caId with
    | none => none
    | some ca =>
      match ca.signedby with
      | some parent => rootWalk cas f parent
      | none => some (caId, f + 1)

/-- `x` reaches `c` by following `signedby` links upward through rows of `cas`. -/
inductive UpChain (cas : List Row) : Nat → Nat → Prop where
  | refl (x : Nat) : UpChain cas x x
  | step {x p c : Nat} (row : Row) (hrow : findRow cas x = some row)
      (hsb : row.signedby = some p) (h : UpChain cas p c) : UpChain cas x c

/-! ## Python-level error model

`validation` is a raised `ValidationErrors` batch; the other constructors are
crash-like exceptions; `fuel` is the modelling artifact for a recursion whose
budget ran out (the Python code has no such bound and would recurse). -/

inductive PyErr where
  | validation
  | typeError
  | cryptoError
  | nameError
  | keyError
  | fuel
deriving DecidableEq, Repr

/-! ## Creation input dicts and the dict-level helpers -/

/-- The `san` entry of a creation dict: the schema delivers a list of strings;
`load_certificate` overwrites it with the parsed `subjectAltName` (a string or
`None`). -/
inductive SanField where
  | fromList (l : List String)
  | fromStr (s : Option String)
deriving DecidableEq, Repr

/-- `' '.join(san or [])` — joining a list joins its items, joining a string
joins its characters (Python iterates strings character-wise), `None` and `''`
give `''`. -/
def pyJoinSan : SanField → String
  | .fromList l => String.intercalate " " l
  | .fromStr none => ""
  | .fromStr (some s) => String.intercalate " " (s.toList.map (fun c => String.mk [c]))

/-- Python `str.split()` on the stored space-joined `san` column. -/
def pySplit (s : String) : List String :=
  (s.split (fun c => c = ' ')).filter (fun w => w != "")

/-- The dict accepted by the `do_create` schemas (`certificate_create` /
`ca_create`); an `Option` field is absent from the dict when `none`.  `chain`
is not part of the schema: only a strategy can put it into the dict. -/
structure CreateData where
  name : String
  certificate : Option CertPEM := none
  privatekey : Option PEMKey := none
  passphrase : Option String := none
  signedby : Option Nat := none
  key_length : Option Nat := none
  lifetime : Option Nat := none
  serial : Option Nat := none
  country : Option String := none
  state : Option String := none
  city : Option String := none
  organization : Option String := none
  common : Option String := none
  email : Option String := none
  san : SanField := .fromList []
  digest_algorithm : Option String := none
  type : Option Nat := none
  chain : Option Bool := none
  CSR : Option CSRPEM := none
deriving DecidableEq, Repr

/-- The dict returned by `CertificateService.load_certificate`
(crypto.py lines 322-351); `digest_algorithm` is present only when the
signature algorithm name matches `^(.+)[Ww]ith` (the `X509Cert.digest`
field of the model is exactly that extraction). -/
structure CertInfoLoaded where
  country : Option String
  state : Option String
  city : Option String
  organization : Option String
  common : Option String
  san : Option String
  email : Option String
  serial : Nat
  digest_algorithm : Option String
deriving DecidableEq, Repr

/-- `CertificateService.load_certificate` (lines 322-351): parse the first PEM
block of the payload; `crypto.Error` is caught and yields `{}` (here `none`). -/
def load_certificate (payload : CertPEM) : Option CertInfoLoaded :=
  match pyLoadCcertificate payload with
  | none => none
  | some cert => some
    { country := cert.subject.C, state := cert.subject.ST,
      city := cert.subject.L, organization := cert.subject.O,
      common := cert.subject.CN, san := cert.subject.subjectAltName,
      email := cert.subject.emailAddress, serial := cert.serial,
      digest_algorithm := cert.digest }

/-- The `for k, v in load_certificate(...).items(): data[k] = v` loop
(lines 593-594): the parsed fields overwrite the supplied ones; the
`digest_algorithm` key is absent when unrecognized, leaving the dict's value. -/
def applyLoaded (d : CreateData) (info : CertInfoLoaded) : CreateData :=
  { d with
    country := info.country, state := info.state, city := info.city,
    organization := info.organization, common := info.common,
    email := info.email, san := .fromStr info.san, serial := some info.serial,
    digest_algorithm := match info.digest_algorithm with
      | some dg => some dg
      | none => d.digest_algorithm }

/-! ## Validator (`validate_cert_name`, `_validate_common_attributes`) -/

/-- The reserved internal keywords of `validate_cert_name` (line 45). -/
def reservedNames : List String := ["external", "self-signed", "external - signature pending"]

/-- one character of `^[a-z0-9_\-]+$` with `re.I`. -/
def nameCharOk (c : Char) : Bool := c.isAlpha || c.isDigit || c = '_' || c = '-'

/-- `validate_cert_name` (lines 33-55) adds no error: no row of the datastore
already holds the name, the name is not a reserved keyword, and it is a
non-empty string over the restricted character class. -/
def validate_cert_name_ok (rows : List Row) (n : String) : Bool :=
  rows.all (fun r => r.name != n)
  && !(reservedNames.contains n)
  && (n != "" && n.toList.all nameCharOk)

/-- `_validate_certificate_with_key` (lines 93-110): runs only when both the
certificate and the private key are present and individually valid; the
TLS-context check succeeds exactly when the key matches the certificate's
public key. -/
def certKeyMatchOk (d : CreateData) : Bool :=
  match d.certificate, d.privatekey with
  | some c, some k =>
    match pyLoadCcertificate c, load_private_key k d.passphrase with
    | some cert, some pk => cert.pubkey == pk.kid
    | _, _ => true
  | _, _ => true

/-- `_validate_common_attributes` (lines 91-177) adds no error.  The external
country validator is modelled as accepting (no claim involves it). `isCreate`
is `'create' in schema_name`, which gates the minimum-key-strength check.
Falsy values (`0` for the integer fields) skip their checks, as in Python. -/
def validateCommonOk (s : Store) (isCreate : Bool) (d : CreateData) : Bool :=
  (match d.certificate with
   | none => true
   | some c => !c.blocks.isEmpty && (pyLoadCcertificate c).isSome)
  && (match d.privatekey with
      | none => true
      | some k =>
        match load_private_key k d.passphrase with
        | none => false
        | some pk => !(isCreate && pk.bits < 1024 && !pk.isEC))
  && (match d.key_length with
      | none => true
      | some kl => kl == 0 || kl == 1024 || kl == 2048 || kl == 4096)
  && (match d.signedby with
      | none => true
      | some i =>
        i == 0 ||
        s.cas.any (fun r => r.id == i && r.certificate.isSome && r.privatekey.isSome))
  && certKeyMatchOk d

/-! ## Crypto-material builders -/

/-- The oracle inputs for the non-deterministic crypto calls: the id of the
freshly generated RSA key, `random.getrandbits(24)`, and the current time. -/
structure Oracles where
  freshKeyId : Nat
  rand : Nat
  now : Int
deriving DecidableEq, Repr

/-- `generate_key(key_length)` (lines 85-88): a fresh RSA key of the requested
size; `generate_key(None)` raises `TypeError`. -/
def generate_key (o : Oracles) : Option Nat → Except PyErr PrivKey
  | some kl => .ok { kid := o.freshKeyId, bits := kl, isEC := false }
  | none => .error .typeError

/-- `san_to_string` (lines 380-392).  Whether an entry gets the `IP:` or the
`DNS:` tag is decided by the external `IpAddress` validator; the tag is
irrelevant to every claim, so entries are uniformly modelled with `DNS:`. -/
def san_to_string (l : List String) : String :=
  if l.isEmpty then ""
  else String.intercalate ", " (l.map (fun x => "DNS: " ++ x))

/-- `san_to_string` applied to whatever the dict's `san` value is
(`cert_info.pop('san', [])`, with `san_list or []` handling `None`). -/
def sanFieldToString : SanField → String
  | .fromList l => san_to_string l
  | .fromStr none => san_to_string []
  | .fromStr (some s) => san_to_string (s.toList.map (fun c => String.mk [c]))

/-- `get_cert_info_from_data` (lines 27-30). -/
structure CertInfo where
  key_length : Option Nat
  country : Option String
  state : Option String
  city : Option String
  organization : Option String
  common : Option String
  san : SanField
  serial : Option Nat
  email : Option String
  lifetime : Option Nat
  digest_algorithm : Option String
deriving DecidableEq, Repr

def get_cert_info_from_data (d : CreateData) : CertInfo :=
  { key_length := d.key_length, country := d.country, state := d.state,
    city := d.city, organization := d.organization, common := d.common,
    san := d.san, serial := d.serial, email := d.email, lifetime := d.lifetime,
    digest_algorithm := d.digest_algorithm }

/-- `create_certificate` (lines 394-446).  The `certificate_cert_info` schema
requires `lifetime` and all six subject fields; with them present, a version-3
self-issued certificate skeleton is built: `subjectAltName` set when the
joined SAN string is non-empty, serial set only when given (a fresh `X509()`
has serial 0), `notBefore` now and `notAfter` `lifetime` days later. -/
def create_certificate (o : Oracles) (info : CertInfo) : Except PyErr X509Cert :=
  match info.lifetime, info.country, info.state, info.city with
  | some lt, some c, some st, some lcity =>
    match info.organization, info.common, info.email with
    | some org, some cn, some em =>
      .ok { subject :=
              { C := some c, ST := some st, L := some lcity, O := some org,
                CN := some cn, emailAddress := some em,
                subjectAltName :=
                  if sanFieldToString info.san = "" then none
                  else some (sanFieldToString info.san) },
            issuer :=
              { C := some c, ST := some st, L := some lcity, O := some org,
                CN := some cn, emailAddress := some em,
                subjectAltName :=
                  if sanFieldToString info.san = "" then none
                  else some (sanFieldToString info.san) },
            serial := info.serial.getD 0,
            pubkey := 0,
            notBefore := o.now,
            notAfter := o.now + lt * 86400,
            digest := none }
    | _, _, _ => .error .validation
  | _, _, _, _ => .error .validation

/-- `create_self_signed_CA` (lines 841-858): generate a key, build the
skeleton, add the CA extensions, set serial to `serial or 0o1`, self-sign. -/
def create_self_signed_CA (o : Oracles) (info : CertInfo) :
    Except PyErr (X509Cert × PrivKey) :=
  match generate_key o info.key_length with
  | .error e => .error e
  | .ok key =>
    match create_certificate o info with
    | .error e => .error e
    | .ok cert0 =>
      match info.digest_algorithm with
      | none => .error .typeError
      | some dg =>
        .ok ({ cert0 with
               pubkey := key.kid,
               serial := match info.serial with
                 | none => 1
                 | some 0 => 1
                 | some k => k,
               digest := some dg }, key)

/-- `create_certificate_signing_request` (lines 448-480): same schema minus
`lifetime`; generate a key, build the request from the subject, self-sign it
(a `None` digest makes `req.sign` raise). -/
def create_certificate_signing_request (o : Oracles) (info : CertInfo) :
    Except PyErr (CSRPEM × PrivKey) :=
  match info.country, info.state, info.city, info.organization with
  | some c, some st, some lcity, some org =>
    match info.common, info.email with
    | some cn, some em =>
      match generate_key o info.key_length with
      | .error e => .error e
      | .ok key =>
        match info.digest_algorithm with
        | none => .error .typeError
        | some _ =>
          .ok (.ok { C := some c, ST := some st, L := some lcity, O := some org,
                     CN := some cn, emailAddress := some em,
                     subjectAltName :=
                       if sanFieldToString info.san = "" then none
                       else some (sanFieldToString info.san) }
                key.kid, key)
    | _, _ => .error .validation
  | _, _, _, _ => .error .validation

/-! ## Certificate creation strategies (lines 490-674) -/

/-- blocks of a payload, for the `chain` computation
(`len(RE_CERTIFICATE.findall(...)) > 1`). -/
def countBlocks : Option CertPEM → Nat
  | none => 0
  | some c => c.blocks.length

/-- `__create_csr` (lines 561-580): no `signedby`, no `lifetime`; generate the
request and key, store both, type `CERT_TYPE_CSR`. -/
def certificate__create_csr (o : Oracles) (d : CreateData) : Except PyErr CreateData :=
  match create_certificate_signing_request o (get_cert_info_from_data d) with
  | .error e => .error e
  | .ok (req, key) =>
    .ok { d with
          type := some CERT_TYPE_CSR, CSR := some req,
          privatekey := some (.plain key) }

/-- `__create_certificate` (lines 582-596): schema requires `certificate`,
`privatekey` and `type`; the fields parsed out of the certificate overwrite
the supplied ones (`load_certificate` returning `{}` adds nothing). -/
def certificate__create_certificate (d : CreateData) : Except PyErr CreateData :=
  match d.certificate, d.privatekey, d.type with
  | some payload, some _, some _ =>
    match load_certificate payload with
    | none => .ok d
    | some info => .ok (applyLoaded d info)
  | _, _, _ => .error .validation

/-- `__create_imported_certificate` (lines 598-621): type `CERT_TYPE_EXISTING`,
defer to `__create_certificate`, set `chain` from the block count, re-export
the private key when a passphrase key is present, pop the passphrase. -/
def certificate__create_imported_certificate (d : CreateData) : Except PyErr CreateData :=
  match certificate__create_certificate { d with type := some CERT_TYPE_EXISTING } with
  | .error e => .error e
  | .ok d1 =>
    let d2 : CreateData := { d1 with chain := some (decide (1 < countBlocks d1.certificate)) }
    let d3 : CreateData :=
      match d2.passphrase with
      | none => d2
      | some p =>
        { d2 with
          privatekey := match d2.privatekey with
            | none => none
            | some k => export_private_key k (some p) }
    .ok { d3 with passphrase := none }

/-- `__create_internal` (lines 623-674): fetch the signing CA, generate a key,
build the skeleton, set the CA's subject as issuer, allocate a serial against
the signing CA, sign with the CA's key and the requested digest. -/
def certificate__create_internal (s : Store) (o : Oracles) (fuel : Nat)
    (d : CreateData) : Except PyErr CreateData :=
  match d.key_length, d.digest_algorithm, d.lifetime, d.signedby with
  | some _, some dg, some _, some sb =>
    match findRow s.cas sb with
    | none => .error .keyError
    | some signingCert =>
      match generate_key o d.key_length with
      | .error e => .error e
      | .ok pubkey =>
        match signingCert.privatekey with
        | none => .error .typeError
        | some skeyPem =>
          match create_certificate o (get_cert_info_from_data d) with
          | .error e => .error e
          | .ok cert0 =>
            match signingCert.certificate with
            | none => .error .typeError
            | some capem =>
              match pyLoadCcertificate capem with
              | none => .error .cryptoError
              | some cacert =>
                match get_serial_for_certificate s fuel sb with
                | none => .error .fuel
                | some serial =>
                  match load_private_key skeyPem none with
                  | none => .error .typeError
                  | some _ =>
                    .ok { d with
                          type := some CERT_TYPE_INTERNAL,
                          certificate := some ⟨[.ok { cert0 with
                            pubkey := pubkey.kid, issuer := cacert.subject,
                            serial := serial, digest := some dg }]⟩,
                          privatekey := some (.plain pubkey),
                          serial := some serial }
  | _, _, _, _ => .error .validation

/-! ## CA creation strategies (lines 1011-1104) -/

/-- `__create_internal` of the CA service (lines 1078-1104): a random 24-bit
serial is written into the cert info, then a self-signed CA is built. -/
def certificateauthority__create_internal (o : Oracles) (d : CreateData) :
    Except PyErr CreateData :=
  match create_self_signed_CA o
      { get_cert_info_from_data d with serial := some o.rand } with
  | .error e => .error e
  | .ok (cert, key) =>
    .ok { d with
          type := some CA_TYPE_INTERNAL,
          certificate := some ⟨[.ok cert]⟩,
          privatekey := some (.plain key),
          serial := some o.rand }

/-- `__create_intermediate_ca` (lines 1011-1052): like the internal
certificate strategy but signed by the parent CA, with the serial drawn from
the parent's tree and recorded in the dict. -/
def certificateauthority__create_intermediate_ca (s : Store) (o : Oracles) (fuel : Nat)
    (d : CreateData) : Except PyErr CreateData :=
  match d.key_length, d.digest_algorithm, d.lifetime, d.signedby with
  | some _, some dg, some _, some sb =>
    match findRow s.cas sb with
    | none => .error .keyError
    | some signingCert =>
      match get_serial_for_certificate s fuel sb with
      | none => .error .fuel
      | some serial =>
        match generate_key o d.key_length with
        | .error e => .error e
        | .ok publickey =>
          match signingCert.privatekey with
          | none => .error .typeError
          | some skeyPem =>
            match create_certificate o (get_cert_info_from_data d) with
            | .error e => .error e
            | .ok cert0 =>
              match signingCert.certificate with
              | none => .error .typeError
              | some capem =>
                match pyLoadCcertificate capem with
                | none => .error .cryptoError
                | some cacert =>
                  match load_private_key skeyPem none with
                  | none => .error .typeError
                  | some _ =>
                    .ok { d with
                          type := some CA_TYPE_INTERMEDIATE,
                          serial := some serial,
                          certificate := some ⟨[.ok { cert0 with
                            pubkey := publickey.kid, issuer := cacert.subject,
                            serial := serial, digest := some dg }]⟩,
                          privatekey := some (.plain publickey) }
  | _, _, _, _ => .error .validation

/-- `__create_imported_ca` (lines 1054-1076): type `CA_TYPE_EXISTING`, `chain`
from the block count, parsed fields overwrite, key re-exported when both a
passphrase and a private key are present, passphrase popped. -/
def certificateauthority__create_imported_ca (d : CreateData) : Except PyErr CreateData :=
  match d.certificate with
  | none => .error .validation
  | some payload =>
    let d1 : CreateData :=
      { d with
        type := some CA_TYPE_EXISTING,
        chain := some (decide (1 < payload.blocks.length)) }
    let d2 : CreateData :=
      match load_certificate payload with
      | none => d1
      | some info => applyLoaded d1 info
    let d3 : CreateData :=
      match d2.passphrase, d2.privatekey with
      | some p, some k => { d2 with privatekey := export_private_key k (some p) }
      | _, _ => d2
    .ok { d3 with passphrase := none }

/-! ## The creation dispatchers (`do_create`, lines 500-559 and 874-912) -/

inductive CertCreateType where
  | internal | imported | create | csr
deriving DecidableEq, Repr

inductive CACreateType where
  | internal | imported | intermediate
deriving DecidableEq, Repr

/-- Modelled from the spec: the datastore column default for `chain`.  The
Django model holding the column default is not under `src/`; the spec's data
model treats `chain` as a plain boolean that only the importing strategies
set, so a dict without `chain` is stored with the default `false`. -/
def chainColumnDefault : Bool := false

/-- `datastore.insert` assigns the next primary key. -/
def nextId (rows : List Row) : Nat := (rows.map Row.id).foldl Nat.max 0 + 1

/-- The row persisted for a strategy's output dict; `do_create` /
`do_update` join the `san` value into a space-separated string first. -/
def rowOfData (rows : List Row) (d : CreateData) : Row :=
  { id := nextId rows, name := d.name, type := d.type.getD 0,
    certificate := d.certificate, privatekey := d.privatekey, CSR := d.CSR,
    signedby := d.signedby, serial := d.serial,
    chain := d.chain.getD chainColumnDefault,
    san := pyJoinSan d.san,
    country := d.country, state := d.state, city := d.city,
    organization := d.organization, common := d.common, email := d.email,
    digest_algorithm := d.digest_algorithm, key_length := d.key_length,
    lifetime := d.lifetime }

/-- `CertificateService.do_create` (lines 500-559): batch-validate, dispatch
to the strategy, join `san`, insert, (re-)read the new row.  The result
carries the possibly-extended store; on error the store is unchanged. -/
def certificate_do_create (s : Store) (o : Oracles) (fuel : Nat)
    (ctype : CertCreateType) (d : CreateData) : Except PyErr Row × Store :=
  if !(validateCommonOk s true d && validate_cert_name_ok s.certs d.name) then
    (.error .validation, s)
  else
    match (match ctype with
      | .internal => certificate__create_internal s o fuel d
      | .imported => certificate__create_imported_certificate d
      | .create => certificate__create_certificate d
      | .csr => certificate__create_csr o d) with
    | .error e => (.error e, s)
    | .ok d2 =>
      let row := rowOfData s.certs d2
      (.ok row, { s with certs := s.certs ++ [row] })

/-- `CertificateAuthorityService.do_create` (lines 874-912). -/
def certificateauthority_do_create (s : Store) (o : Oracles) (fuel : Nat)
    (ctype : CACreateType) (d : CreateData) : Except PyErr Row × Store :=
  if !(validateCommonOk s true d && validate_cert_name_ok s.cas d.name) then
    (.error .validation, s)
  else
    match (match ctype with
      | .internal => certificateauthority__create_internal o d
      | .imported => certificateauthority__create_imported_ca d
      | .intermediate => certificateauthority__create_intermediate_ca s o fuel d) with
    | .error e => (.error e, s)
    | .ok d2 =>
      let row := rowOfData s.cas d2
      (.ok row, { s with cas := s.cas ++ [row] })

/-! ## Chain Resolver (`cert_extend`, lines 196-318) -/

def CERT_ROOT_PATH : String := "/etc/certificates"
def CERT_CA_ROOT_PATH : String := "/etc/certificates/CA"

/-- `cert_issuer` (lines 238-248) when it returns one of the terminal strings;
`none` stands for the two non-string outcomes (the resolved parent dict for
internal certificates / intermediate CAs, or Python `None` otherwise). -/
def cert_issuer_tag (r : Row) : Option String :=
  if r.type == CA_TYPE_EXISTING || r.type == CERT_TYPE_EXISTING then some "external"
  else if r.type == CA_TYPE_INTERNAL then some "self-signed"
  else if r.type == CERT_TYPE_CSR then some "external - signature pending"
  else none

/-- The `while signing_CA not in [...]` walk (lines 257-263) over the resolved
ancestor chain: collect each ancestor's certificate payload until the issuer
value becomes a terminal string or `None`. -/
def issuerWalk : List Row → List (Option CertPEM)
  | [] => []
  | p :: rest =>
    p.certificate ::
      (match cert_issuer_tag p with
       | some _ => []
       | none =>
         if p.type == CERT_TYPE_INTERNAL || p.type == CA_TYPE_INTERMEDIATE then
           issuerWalk rest
         else [])

/-- The `for c in certs` loop under `try` (lines 265-276): normalize payloads
until the first failure (`None` payload raises `TypeError`, a malformed block
`crypto.Error`; both are caught and end the loop early), tracking the last
successfully loaded certificate (`cert_obj`). -/
def certLoopGo : List (Option CertPEM) → Option X509Cert → List X509Cert × Option X509Cert
  | [], acc => ([], acc)
  | c :: rest, acc =>
    match c with
    | none => ([], acc)
    | some pem =>
      match pyLoadCcertificate pem with
      | none => ([], acc)
      | some cert =>
        let (l, last) := certLoopGo rest (some cert)
        (cert :: l, last)

/-- `get_subject().get_components()` in the order this plugin writes subjects
(C, ST, L, O, CN, subjectAltName, emailAddress), only the set components. -/
def subjectComponents (s : X509Subject) : List (String × String) :=
  (match s.C with | some v => [("C", v)] | none => [])
  ++ (match s.ST with | some v => [("ST", v)] | none => [])
  ++ (match s.L with | some v => [("L", v)] | none => [])
  ++ (match s.O with | some v => [("O", v)] | none => [])
  ++ (match s.CN with | some v => [("CN", v)] | none => [])
  ++ (match s.subjectAltName with | some v => [("subjectAltName", v)] | none => [])
  ++ (match s.emailAddress with | some v => [("emailAddress", v)] | none => [])

/-- `'/' + '/'.join('%s=%s' ...)` (lines 313-316). -/
def dnString (s : X509Subject) : String :=
  "/" ++ String.intercalate "/" ((subjectComponents s).map (fun kv => kv.1 ++ "=" ++ kv.2))

/-- The extended view produced by `cert_extend`.  `issuerTag` is the terminal
issuer string when there is one; `parents` is the resolved `signedby` chain;
`fromTime`/`untilTime` hold the raw notBefore/notAfter instants (the model of
the `ctime()` strings); key/CSR re-encoding is the identity on the symbolic
PEM values, so those fields keep their stored form. -/
structure ExtendedCert where
  id : Nat
  name : String
  type : Nat
  certificate : Option CertPEM
  privatekey : Option PEMKey
  CSR : Option CSRPEM
  serial : Option Nat
  chain : Bool
  sanList : List String
  root_path : String
  certificate_path : String
  privatekey_path : String
  csr_path : String
  issuerTag : Option String
  parents : List Row
  chain_list : List X509Cert
  fromTime : Option Int
  untilTime : Option Int
  DN : Option String
  internal : String
deriving DecidableEq, Repr

/-- `cert_extend` (lines 196-318).  Parent resolution queries the CA store
with this same extender (fuel-bounded); `chain=True` with no payload raises
`TypeError` at `findall`; the three normalization `try` blocks degrade their
field on failure; a CSR-typed row whose CSR is absent or malformed leaves the
local `csr_obj` unassigned, so the later `obj = csr_obj` raises
`UnboundLocalError` (modelled `nameError`). -/
def cert_extend (s : Store) : Nat → Row → Except PyErr ExtendedCert
  | 0 => fun _ => .error .fuel
  | fuel + 1 => fun cert =>
    match (match cert.signedby with
      | none => Except.ok ([] : List Row)
      | some pid =>
        match findRow s.cas pid with
        | none => Except.error PyErr.keyError
        | some prow =>
          match cert_extend s fuel prow with
          | .error e => Except.error e
          | .ok pext => Except.ok (prow :: pext.parents)) with
    | .error e => .error e
    | .ok parents =>
      let sanList := pySplit cert.san
      let root_path :=
        if cert.type == CA_TYPE_EXISTING || cert.type == CA_TYPE_INTERNAL
            || cert.type == CA_TYPE_INTERMEDIATE then
          CERT_CA_ROOT_PATH
        else CERT_ROOT_PATH
      match (if cert.chain then
          match cert.certificate with
          | none => Except.error PyErr.typeError
          | some pem => Except.ok (pem.blocks.map (fun b => (some ⟨[b]⟩ : Option CertPEM)))
        else
          Except.ok (cert.certificate ::
            (if cert.type == CERT_TYPE_INTERNAL || cert.type == CA_TYPE_INTERMEDIATE then
              issuerWalk parents
            else []))) with
      | .error e => .error e
      | .ok certsList =>
        let looped := certLoopGo certsList none
        let csrObj := cert.CSR.bind pyLoadCertificateRequest
        let mk : Option Int → Option Int → Option String → ExtendedCert := fun ft ut dn =>
          { id := cert.id, name := cert.name, type := cert.type,
            certificate := cert.certificate, privatekey := cert.privatekey,
            CSR := cert.CSR, serial := cert.serial, chain := cert.chain,
            sanList := sanList, root_path := root_path,
            certificate_path := root_path ++ "/" ++ cert.name ++ ".crt",
            privatekey_path := root_path ++ "/" ++ cert.name ++ ".key",
            csr_path := root_path ++ "/" ++ cert.name ++ ".csr",
            issuerTag := cert_issuer_tag cert, parents := parents,
            chain_list := looped.1, fromTime := ft, untilTime := ut, DN := dn,
            internal :=
              if cert.type == CA_TYPE_EXISTING || cert.type == CERT_TYPE_EXISTING then "NO"
              else "YES" }
        if cert.type == CERT_TYPE_CSR then
          match csrObj with
          | none => .error .nameError
          | some (subj, _) => .ok (mk none none (some (dnString subj)))
        else
          match looped.2 with
          | none => .ok (mk none none none)
          | some _ =>
            match cert.certificate with
            | none => .error .typeError
            | some pem =>
              match pyLoadCcertificate pem with
              | none => .error .cryptoError
              | some obj =>
                .ok (mk (some obj.notBefore) (some obj.notAfter) (some (dnString obj.subject)))

/-- A service `query` filtered on one id (`certificateauthority.query` /
`certificate.query` / `_get_instance`): the datastore `extend` option runs
`cert_extend` on every matched row, so a matched row whose extension crashes
propagates that exception to the caller.  In the symbolic model the extended
fields the callers read (certificate, privatekey, CSR, serial, chain, name,
id, digest_algorithm) coincide with the stored row's — re-encoding is the
identity on the symbolic PEM values — so on success the stored row itself is
returned. -/
def queryExtended (s : Store) (fuel : Nat) (rows : List Row) (i : Nat) :
    Except PyErr (Option Row) :=
  match findRow rows i with
  | none => .ok none
  | some r =>
    match cert_extend s fuel r with
    | .error e => .error e
    | .ok _ => .ok (some r)

/-! ## CSR signing (`ca_sign_csr` / `__ca_sign_csr`, lines 914-1009) -/

structure SignCsrData where
  ca_id : Nat
  csr_cert_id : Nat
  name : String
deriving DecidableEq, Repr

/-- `__ca_sign_csr`: the two service queries (lines 933 and 937) read the CA
row and the target row through `cert_extend`, so a matched row whose chain
extension crashes propagates that exception before any validation; then
validate (CA found with a private key, CSR entity found with a parsing CSR —
all failures batch into one raised `ValidationErrors`), build the new
certificate from the CSR's subject and public key with the CA's subject as
issuer, a tree-allocated serial and a fixed ten-year window, and persist it
through `certificate.create` with `CERTIFICATE_CREATE`, carrying the CSR
row's private key and `signedby = ca`. -/
def ca_sign_csr (s : Store) (o : Oracles) (fuel : Nat) (d : SignCsrData) :
    Except PyErr Row × Store :=
  match queryExtended s fuel s.cas d.ca_id with
  | .error e => (.error e, s)
  | .ok caQ =>
    match queryExtended s fuel s.certs d.csr_cert_id with
    | .error e => (.error e, s)
    | .ok csrQ =>
      match caQ, csrQ with
      | some ca, some csrRow =>
          match ca.privatekey with
          | none => (.error .validation, s)
          | some cakeyPem =>
            match csrRow.CSR with
            | none => (.error .validation, s)
            | some csrPem =>
              match pyLoadCertificateRequest csrPem with
              | none => (.error .validation, s)
              | some (csrSubj, csrPub) =>
                match ca.certificate with
                | none => (.error .typeError, s)
                | some capem =>
                  match pyLoadCcertificate capem with
                  | none => (.error .cryptoError, s)
                  | some cacert =>
                    match get_serial_for_certificate s fuel d.ca_id with
                    | none => (.error .fuel, s)
                    | some serial =>
                      match load_private_key cakeyPem none, ca.digest_algorithm with
                      | some _, some dg =>
                        certificate_do_create s o fuel .create
                          { name := d.name,
                            certificate := some ⟨[.ok
                              { subject := csrSubj, issuer := cacert.subject,
                                serial := serial, pubkey := csrPub,
                                notBefore := o.now,
                                notAfter := o.now + 86400 * 365 * 10,
                                digest := some dg }]⟩,
                            privatekey := csrRow.privatekey,
                            signedby := some ca.id,
                            type := some CERT_TYPE_INTERNAL }
                      | _, _ => (.error .typeError, s)
      | _, _ => (.error .validation, s)

/-! ## Certificate update (`do_update`, lines 676-737) -/

structure UpdateData where
  name : Option String := none
  certificate : Option CertPEM := none
deriving DecidableEq, Repr

def replaceRow (rows : List Row) (i : Nat) (new : Row) : List Row :=
  rows.map (fun r => if r.id == i then new else r)

/-- the merged dict handed to `validate_common_attributes` by `do_update`
(`signedby` already converted back to its integer id). -/
def dataOfRow (r : Row) : CreateData :=
  { name := r.name, certificate := r.certificate, privatekey := r.privatekey,
    passphrase := none, signedby := r.signedby, key_length := r.key_length,
    lifetime := r.lifetime, serial := r.serial, country := r.country,
    state := r.state, city := r.city, organization := r.organization,
    common := r.common, email := r.email, san := .fromList (pySplit r.san),
    digest_algorithm := r.digest_algorithm, type := some r.type,
    chain := some r.chain, CSR := r.CSR }

/-- the row-level version of the `new.update(load_certificate(...))` loop of
`do_update` (line 707-709). -/
def applyLoadedRow (r : Row) (info : CertInfoLoaded) : Row :=
  { r with
    country := info.country, state := info.state, city := info.city,
    organization := info.organization, common := info.common,
    email := info.email, serial := some info.serial,
    san := pyJoinSan (.fromStr info.san),
    digest_algorithm := match info.digest_algorithm with
      | some dg => some dg
      | none => r.digest_algorithm }

/-- `CertificateService.do_update` (lines 676-737).  `_get_instance` at line
685 reads the row through `cert_extend`, so a legacy row whose chain
extension crashes propagates that exception before anything else (on success
the extended fields the rest reads coincide with the stored row's in the
symbolic model; the extended `san` list is re-joined at line 721, the
`pySplit`/`pyJoinSan` round trip below).  A supplied certificate is rejected
unless the row is a pending CSR; fulfilling a CSR re-validates, flips the
type to `CERT_TYPE_EXISTING`, overwrites the parsed fields and recomputes
`chain`; a name change is validated against the datastore.  All failures are
raised before the single `datastore.update`. -/
def certificate_do_update (s : Store) (fuel : Nat) (i : Nat) (d : UpdateData) :
    Except PyErr Row × Store :=
  match findRow s.certs i with
  | none => (.error .keyError, s)
  | some old =>
    match cert_extend s fuel old with
    | .error e => (.error e, s)
    | .ok _ =>
      let new0 : Row :=
        { old with
          name := d.name.getD old.name,
          certificate := match d.certificate with
            | some c => some c
            | none => old.certificate }
      if d.certificate.isSome && old.type != CERT_TYPE_CSR then
        (.error .validation, s)
      else
        match (match d.certificate with
          | none => .ok { new0 with san := pyJoinSan (.fromList (pySplit old.san)) }
          | some c =>
            if !(validateCommonOk s false (dataOfRow new0)) then .error PyErr.validation
            else
              let t1 : Row := { new0 with type := CERT_TYPE_EXISTING }
              let t2 : Row :=
                match load_certificate c with
                | none => { t1 with san := pyJoinSan (.fromList (pySplit old.san)) }
                | some info => applyLoadedRow t1 info
              .ok { t2 with chain := decide (1 < c.blocks.length) } :
            Except PyErr Row) with
        | .error e => (.error e, s)
        | .ok new1 =>
          if new1.name != old.name && !(validate_cert_name_ok s.certs new1.name) then
            (.error .validation, s)
          else
            (.ok new1, { s with certs := replaceRow s.certs i new1 })

/-! ## Concrete sample data used by the theorems and their witnesses -/

/-- A small concrete store: a root CA (serial 10) with one directly signed
certificate (serial 3) and one intermediate CA (serial 7). -/
def sampleRootCA : Row :=
  { id := 1, name := "rootca", type := CA_TYPE_INTERNAL, serial := some 10 }

def sampleInterCA : Row :=
  { id := 2, name := "inter", type := CA_TYPE_INTERMEDIATE, signedby := some 1,
    serial := some 7 }

def sampleCert : Row :=
  { id := 1, name := "c1", type := CERT_TYPE_INTERNAL, signedby := some 1, serial := some 3 }

def sampleStore : Store :=
  { cas := [sampleRootCA, sampleInterCA], certs := [sampleCert] }

/-- `datastore.insert('system.certificate', ...)`: the new row is appended. -/
def insertCertRow (s : Store) (r : Row) : Store :=
  { s with certs := s.certs ++ [r] }

/-- The helper value computed by `get_serial_for_certificate` once the
`signedby` walk has reached a root. -/
def rootCompute (s : Store) (fuel : Nat) (r : Nat) : Option Nat :=
  match findRow s.cas r with
  | none => none
  | some ca =>
    match childSerials s fuel r with
    | none => none
    | some sub =>
      if ((((certSerials s r ++ sub).filterMap id).filter (fun n => n != 0)).isEmpty) then
        some (ca.serial.getD 0 + 1)
      else
        some (((((certSerials s r ++ sub).filterMap id).filter
          (fun n => n != 0)).foldl Nat.max 0) + 1)

/-- A certificate issued with the serial the allocator returned on
`sampleStore` for the intermediate CA, signed by that CA. -/
def sampleIssuedCert : Row :=
  { id := 2, name := "c2", type := CERT_TYPE_INTERNAL, signedby := some 2, serial := some 11 }

/-- Concrete data for the C8 counterexample and several witnesses. -/
def wSubjCA : X509Subject := { C := some "US", CN := some "myca" }
def wSubjLeaf : X509Subject := { C := some "US", CN := some "leaf" }
def wImpKey : PrivKey := { kid := 70, bits := 2048, isEC := false }
def wImpCert : X509Cert :=
  { subject := wSubjLeaf, issuer := wSubjCA, serial := 42, pubkey := 70,
    notBefore := 0, notAfter := 99, digest := some "SHA256" }
def wImpCert2 : X509Cert := { wImpCert with serial := 43 }
def wEmptyStore : Store := { cas := [], certs := [] }
def wOracles : Oracles := { freshKeyId := 99, rand := 5, now := 100 }

/-- A plain `CERTIFICATE_CREATE` input whose certificate payload packs two
valid PEM blocks. -/
def wPlainData2B : CreateData :=
  { name := "plain1", certificate := some ⟨[.ok wImpCert, .ok wImpCert2]⟩,
    privatekey := some (.plain wImpKey), type := some CERT_TYPE_EXISTING }

/-- A persisted legacy row of type CSR whose stored CSR is malformed PEM. -/
def wBadCsrRow : Row :=
  { id := 9, name := "legacy", type := CERT_TYPE_CSR, CSR := some .bad }

/-- A persisted row whose certificate payload is malformed and whose private
key is an encrypted legacy key. -/
def wBadPayloadRow : Row :=
  { id := 10, name := "legacy2", type := CERT_TYPE_EXISTING,
    certificate := some ⟨[.bad]⟩, privatekey := some (.encrypted wImpKey "x") }

/-- the exception with which a call raised, if it did. -/
def errOf {α : Type} : Except PyErr α → Option PyErr
  | .error e => some e
  | .ok _ => none

/-! ## Concrete witness data for claims C3, C5-C10 -/

deriving instance DecidableEq for Except

def wCaKey : PrivKey := { kid := 50, bits := 2048, isEC := false }

def wCaCert : X509Cert :=
  { subject := wSubjCA, issuer := wSubjCA, serial := 10, pubkey := 50,
    notBefore := 0, notAfter := 1000, digest := some "SHA256" }

def wCaRow : Row :=
  { id := 1, name := "ca1", type := CA_TYPE_INTERNAL,
    certificate := some ⟨[.ok wCaCert]⟩, privatekey := some (.plain wCaKey),
    serial := some 10, digest_algorithm := some "SHA256" }

def wCsrKey : PrivKey := { kid := 60, bits := 2048, isEC := false }

def wCsrRow : Row :=
  { id := 1, name := "csr1", type := CERT_TYPE_CSR,
    CSR := some (.ok wSubjLeaf 60), privatekey := some (.plain wCsrKey) }

def wSignStore : Store := { cas := [wCaRow], certs := [wCsrRow] }

def wSignData : SignCsrData := { ca_id := 1, csr_cert_id := 1, name := "signed1" }

def wSignResult : Except PyErr Row × Store := ca_sign_csr wSignStore wOracles 5 wSignData

def wSignedRow : Row :=
  match wSignResult.1 with
  | .ok r => r
  | .error _ => wCsrRow

def wCaNoKey : Row :=
  { id := 2, name := "ca2", type := CA_TYPE_INTERNAL,
    certificate := some ⟨[.ok wCaCert]⟩, privatekey := none }

def wNoKeyStore : Store := { cas := [wCaRow, wCaNoKey], certs := [wCsrRow] }

def wImportedData : CreateData :=
  { name := "imp1", certificate := some ⟨[.ok wImpCert]⟩,
    privatekey := some (.encrypted wImpKey "pw"), passphrase := some "pw" }

def wImportResult : Except PyErr Row × Store :=
  certificate_do_create wEmptyStore wOracles 5 .imported wImportedData

def wImportedRow : Row :=
  match wImportResult.1 with
  | .ok r => r
  | .error _ => wCsrRow

def wCaData : CreateData :=
  { name := "newca", key_length := some 2048, digest_algorithm := some "SHA256",
    lifetime := some 3650, country := some "US", state := some "TX",
    city := some "A", organization := some "Og", common := some "cn",
    email := some "e@f.g" }

def wCaInternalResult : Except PyErr Row × Store :=
  certificateauthority_do_create wEmptyStore wOracles 5 .internal wCaData

def wCaInternalRow : Row :=
  match wCaInternalResult.1 with
  | .ok r => r
  | .error _ => wCsrRow

/-- a certificate fulfilling `wCsrRow`: its public key matches the stored key. -/
def wFulfillCert : X509Cert :=
  { subject := wSubjLeaf, issuer := wSubjCA, serial := 77, pubkey := 60,
    notBefore := 0, notAfter := 9, digest := some "SHA256" }

def wUpdStore : Store := { cas := [], certs := [wCsrRow] }

def wFulfillData : UpdateData := { certificate := some ⟨[.ok wFulfillCert]⟩ }

def wUpdResult : Except PyErr Row × Store := certificate_do_update wUpdStore 5 1 wFulfillData

def wUpdatedRow : Row :=
  match wUpdResult.1 with
  | .ok r => r
  | .error _ => wCsrRow

/-- a store holding a non-CSR certificate row, for the C9 rejection case. -/
def wPlainRow : Row :=
  { id := 2, name := "pl", type := CERT_TYPE_EXISTING,
    certificate := some ⟨[.ok wFulfillCert]⟩, privatekey := some (.plain wCsrKey) }

def wUpdStore2 : Store := { cas := [], certs := [wCsrRow, wPlainRow] }

/-- a keyless CA next to a legacy CSR row whose stored CSR is malformed. -/
def wC5Store : Store := { cas := [wCaNoKey], certs := [wBadCsrRow] }

/-- a legacy row with `chain` set but no stored certificate payload. -/
def wChainNullRow : Row :=
  { id := 10, name := "legacy3", type := CERT_TYPE_EXISTING, chain := true,
    certificate := none }

def wC9Store : Store := { cas := [], certs := [wBadCsrRow, wChainNullRow] }

/-! ## Lemmas about `List.foldl Nat.max 0` (Python's `max` over a list) -/

theorem foldl_max_init (l : List Nat) (a : Nat) :
    l.foldl Nat.max a = Nat.max a (l.foldl Nat.max 0) := by
  induction l generalizing a with
  | nil => simp
  | cons x t ih =>
    simp only [List.foldl_cons]
    rw [ih (Nat.max a x), ih (Nat.max 0 x)]
    simp [Nat.max_assoc, Nat.zero_max]

theorem foldl_max_perm {l₁ l₂ : List Nat} (h : l₁.Perm l₂) :
    l₁.foldl Nat.max 0 = l₂.foldl Nat.max 0 := by
  induction h with
  | nil => rfl
  | cons x _ ih =>
    simp only [List.foldl_cons]
    rw [foldl_max_init _ (Nat.max 0 x), foldl_max_init _ (Nat.max 0 x), ih]
  | swap x y l =>
    simp only [List.foldl_cons]
    rw [foldl_max_init l (Nat.max (Nat.max 0 y) x), foldl_max_init l (Nat.max (Nat.max 0 x) y)]
    simp [Nat.max_comm, Nat.max_assoc, Nat.max_left_comm]
  | trans _ _ ih₁ ih₂ => exact ih₁.trans ih₂

theorem le_foldl_max {x : Nat} {l : List Nat} (h : x ∈ l) : x ≤ l.foldl Nat.max 0 := by
  induction l with
  | nil => cases h
  | cons y t ih =>
    simp only [List.foldl_cons]
    rw [foldl_max_init t]
    rcases List.mem_cons.mp h with rfl | hx
    · exact le_trans (Nat.le_max_right 0 x) (Nat.le_max_left _ _)
    · exact le_trans (ih hx) (Nat.le_max_right _ _)

/-- Removing the zeros of a list never changes its `max` with initial value 0. -/
theorem foldl_max_filter_ne_zero (l : List Nat) :
    (l.filter (fun n => n != 0)).foldl Nat.max 0 = l.foldl Nat.max 0 := by
  induction l with
  | nil => rfl
  | cons x t ih =>
    by_cases hx : x = 0
    · subst hx
      simp [List.filter_cons, ih]
    · have : (x != 0) = true := by simpa using hx
      simp only [List.filter_cons, this, if_pos, List.foldl_cons]
      rw [foldl_max_init (t.filter fun n => n != 0), foldl_max_init t, ih]

/-! ## The code's `child_serials` matches the spec's descendant pool (claim C1) -/

theorem childSerialsMany_spec (s : Store) (recC : Nat → Option (List (Option Nat)))
    (recD : Nat → Option (List Nat))
    (hrec : ∀ c L, recC c = some L →
      ∃ D, recD c = some D ∧ L.Perm (D.flatMap (descendantContribution s))) :
    ∀ l L, childSerialsMany recC l = some L →
      ∃ D, specDescendantsMany recD l = some D ∧
        L.Perm (D.flatMap (descendantContribution s)) := by
  intro l
  induction l with
  | nil =>
    intro L h
    refine ⟨[], rfl, ?_⟩
    simp [childSerialsMany] at h
    simp [h]
  | cons c rest ihl =>
    intro L h
    simp only [childSerialsMany] at h
    cases hx : recC c.id with
    | none => rw [hx] at h; cases h
    | some x =>
      rw [hx] at h
      cases hxs : childSerialsMany recC rest with
      | none => rw [hxs] at h; cases h
      | some xs =>
        rw [hxs] at h
        injection h with h
        obtain ⟨Dc, hDc, hpc⟩ := hrec _ _ hx
        obtain ⟨Dr, hDr, hpr⟩ := ihl _ hxs
        refine ⟨Dc ++ Dr, ?_, ?_⟩
        · simp only [specDescendantsMany, hDc, hDr]
        · subst h
          rw [List.flatMap_append]
          exact hpc.append hpr

theorem childSerials_spec (s : Store) :
    ∀ fuel caId L, childSerials s fuel caId = some L →
      ∃ D, specDescendants s.cas fuel caId = some D ∧
        L.Perm (D.flatMap (descendantContribution s)) := by
  intro fuel
  induction fuel with
  | zero => intro caId L h; simp [childSerials] at h
  | succ f ih =>
    intro caId L h
    simp only [childSerials] at h
    cases hm : childSerialsMany (childSerials s f) (caChildren s.cas caId) with
    | none => rw [hm] at h; cases h
    | some sub =>
      rw [hm] at h
      cases hf : findRow s.cas caId with
      | none => rw [hf] at h; cases h
      | some own =>
        rw [hf] at h
        injection h with h
        obtain ⟨D, hD, hperm⟩ :=
          childSerialsMany_spec s (childSerials s f) (specDescendants s.cas f) ih _ _ hm
        refine ⟨caId :: D, ?_, ?_⟩
        · simp only [specDescendants, hD]
        · subst h
          have h1 : descendantContribution s caId = own.serial :: certSerials s caId := by
            simp [descendantContribution, hf]
          rw [List.flatMap_cons, h1, List.append_assoc]
          have p1 : List.Perm (sub ++ (certSerials s caId ++ [own.serial]))
              (sub ++ (own.serial :: certSerials s caId)) :=
            (List.perm_append_singleton _ _).append_left sub
          have p2 : List.Perm (sub ++ (own.serial :: certSerials s caId))
              ((own.serial :: certSerials s caId) ++ sub) := List.perm_append_comm
          have p3 : List.Perm ((own.serial :: certSerials s caId) ++ sub)
              ((own.serial :: certSerials s caId) ++ D.flatMap (descendantContribution s)) :=
            hperm.append_left _
          exact (p1.trans p2).trans p3

/-- At a root, the code's value (falsy serials dropped, fallback when the
filtered list is empty) agrees with the spec's value (exactly the nulls
dropped), for any pool that contains the root's own recorded serial. -/
theorem root_formula_eq {Pc Ps : List (Option Nat)} (oserial : Option Nat)
    (hperm : Pc.Perm Ps) (hmem : oserial ∈ Ps) :
    (if ((Pc.filterMap id).filter (fun n => n != 0)).isEmpty then some (oserial.getD 0 + 1)
     else some ((((Pc.filterMap id).filter (fun n => n != 0)).foldl Nat.max 0) + 1))
    = (if (Ps.filterMap id).isEmpty then some (oserial.getD 0 + 1)
       else some ((Ps.filterMap id).foldl Nat.max 0 + 1) : Option Nat) := by
  have hp : (Pc.filterMap id).Perm (Ps.filterMap id) := hperm.filterMap id
  by_cases hS : Ps.filterMap id = []
  · have hc : Pc.filterMap id = [] := by rw [hS] at hp; exact hp.eq_nil
    simp [hS, hc]
  · have hSe : (Ps.filterMap id).isEmpty = false := by
      simpa [List.isEmpty_iff] using hS
    by_cases hf0 : (Pc.filterMap id).filter (fun n => n != 0) = []
    · have hallc : ∀ x ∈ Pc.filterMap id, x = 0 := by
        intro x hx
        have := List.filter_eq_nil_iff.mp hf0 x hx
        simpa using this
      have hall : ∀ x ∈ Ps.filterMap id, x = 0 := fun x hx =>
        hallc x (hp.mem_iff.mpr hx)
      have hfS : (Ps.filterMap id).filter (fun n => n != 0) = [] := by
        rw [List.filter_eq_nil_iff]
        intro a ha
        simp [hall a ha]
      have hmax : (Ps.filterMap id).foldl Nat.max 0 = 0 := by
        rw [← foldl_max_filter_ne_zero, hfS]
        rfl
      have ho : oserial.getD 0 = 0 := by
        cases oserial with
        | none => rfl
        | some k =>
          have hk : k ∈ Ps.filterMap id := List.mem_filterMap.mpr ⟨some k, hmem, rfl⟩
          simpa using hall _ hk
      simp [hf0, hSe, hmax, ho]
    · have hfe : ((Pc.filterMap id).filter (fun n => n != 0)).isEmpty = false := by
        simpa [List.isEmpty_iff] using hf0
      have heq : ((Pc.filterMap id).filter (fun n => n != 0)).foldl Nat.max 0
          = (Ps.filterMap id).foldl Nat.max 0 := by
        rw [foldl_max_filter_ne_zero]
        exact foldl_max_perm hp
      simp [hfe, hSe, heq]

/-- C1: `get_serial_for_certificate(ca_id)` delegates upward while `signedby`
is set; at the root its value is exactly the spec's formula — max of the
multiset of serials collected over the root's tree (the root's own serial
included), nulls removed, plus one, with the `(root serial or 0) + 1` fallback
when the multiset is empty. -/
theorem get_serial_for_certificate_matches_spec (s : Store) (fuel caId n : Nat)
    (h : get_serial_for_certificate s fuel caId = some n) :
    claimNextSerial s fuel caId = some n := by
  induction fuel generalizing caId with
  | zero => simp [get_serial_for_certificate] at h
  | succ f ih =>
    cases hf : findRow s.cas caId with
    | none => simp [get_serial_for_certificate, hf] at h
    | some ca =>
      cases hsb : ca.signedby with
      | some p =>
        simp only [get_serial_for_certificate, hf, hsb] at h
        simp only [claimNextSerial, hf, hsb]
        exact ih p h
      | none =>
        cases hcs : childSerials s (f + 1) caId with
        | none => simp [get_serial_for_certificate, hf, hsb, hcs] at h
        | some sub =>
          simp only [get_serial_for_certificate, hf, hsb, hcs] at h
          obtain ⟨D, hD, hperm⟩ := childSerials_spec s (f + 1) caId sub hcs
          have hpool : specSerialPool s (f + 1) caId
              = some (certSerials s caId ++ D.flatMap (descendantContribution s)) := by
            rw [specSerialPool, hD]
          simp only [claimNextSerial, hf, hsb, hpool]
          obtain ⟨ds, rfl⟩ : ∃ ds, D = caId :: ds := by
            simp only [specDescendants] at hD
            cases hm : specDescendantsMany (specDescendants s.cas f) (caChildren s.cas caId) with
            | none => rw [hm] at hD; cases hD
            | some ds => rw [hm] at hD; injection hD with hD; exact ⟨ds, hD.symm⟩
          have hcontrib : descendantContribution s caId = ca.serial :: certSerials s caId := by
            simp [descendantContribution, hf]
          have hmem : ca.serial ∈ certSerials s caId
              ++ (caId :: ds).flatMap (descendantContribution s) := by
            rw [List.flatMap_cons, hcontrib]
            exact List.mem_append_right _ (List.mem_append_left _ (List.mem_cons_self _ _))
          have hPerm : (certSerials s caId ++ sub).Perm
              (certSerials s caId ++ (caId :: ds).flatMap (descendantContribution s)) :=
            hperm.append_left _
          rw [← root_formula_eq ca.serial hPerm hmem]
          exact h

/-- Witness for C1: on `sampleStore`, asking the intermediate CA delegates to
the root and both the code and the spec formula give `max {3, 3, 10, 7} + 1`. -/
theorem get_serial_for_certificate_matches_spec_witness :
    get_serial_for_certificate sampleStore 5 2 = some 11
    ∧ claimNextSerial sampleStore 5 2 = some 11 :=
  ⟨by decide, get_serial_for_certificate_matches_spec sampleStore 5 2 11 (by decide)⟩

/-! ## Monotonicity of the serial allocator under issuance (claim C2) -/

theorem get_serial_eq_rootWalk (s : Store) :
    ∀ fuel caId, get_serial_for_certificate s fuel caId =
      match rootWalk s.cas fuel caId with
      | none => none
      | some (r, f₂) => rootCompute s f₂ r := by
  intro fuel
  induction fuel with
  | zero => intro caId; simp [get_serial_for_certificate, rootWalk]
  | succ f ih =>
    intro caId
    cases hf : findRow s.cas caId with
    | none => simp [get_serial_for_certificate, rootWalk, hf]
    | some ca =>
      cases hsb : ca.signedby with
      | some p =>
        simp only [get_serial_for_certificate, rootWalk, hf, hsb]
        exact ih p
      | none =>
        simp only [get_serial_for_certificate, rootWalk, hf, hsb, rootCompute]

theorem rootWalk_upchain (cas : List Row) :
    ∀ fuel caId r f₂, rootWalk cas fuel caId = some (r, f₂) → UpChain cas caId r := by
  intro fuel
  induction fuel with
  | zero => intro caId r f₂ h; simp [rootWalk] at h
  | succ f ih =>
    intro caId r f₂ h
    cases hf : findRow cas caId with
    | none => simp [rootWalk, hf] at h
    | some ca =>
      cases hsb : ca.signedby with
      | some p =>
        simp only [rootWalk, hf, hsb] at h
        exact UpChain.step ca hf hsb (ih p r f₂ h)
      | none =>
        simp only [rootWalk, hf, hsb, Option.some.injEq, Prod.mk.injEq] at h
        obtain ⟨rfl, -⟩ := h
        exact UpChain.refl caId

/-- Appending a certificate row never makes `child_serials` fail. -/
theorem childSerialsMany_insert_some (recC recC' : Nat → Option (List (Option Nat)))
    (hrec : ∀ c L, recC c = some L → ∃ L', recC' c = some L') :
    ∀ l L, childSerialsMany recC l = some L →
      ∃ L', childSerialsMany recC' l = some L' := by
  intro l
  induction l with
  | nil => intro L _; exact ⟨[], rfl⟩
  | cons c rest ihl =>
    intro L h
    simp only [childSerialsMany] at h ⊢
    cases hx : recC c.id with
    | none => rw [hx] at h; cases h
    | some x =>
      rw [hx] at h
      cases hxs : childSerialsMany recC rest with
      | none => rw [hxs] at h; cases h
      | some xs =>
        obtain ⟨x', hx'⟩ := hrec _ _ hx
        obtain ⟨xs', hxs'⟩ := ihl _ hxs
        rw [hx', hxs']
        exact ⟨x' ++ xs', rfl⟩

theorem childSerials_insert_some (s : Store) (r : Row) :
    ∀ fuel c L, childSerials s fuel c = some L →
      ∃ L', childSerials (insertCertRow s r) fuel c = some L' := by
  intro fuel
  induction fuel with
  | zero => intro c L h; simp [childSerials] at h
  | succ f ih =>
    intro c L h
    simp only [childSerials] at h ⊢
    have hcas : (insertCertRow s r).cas = s.cas := rfl
    rw [hcas]
    cases hm : childSerialsMany (childSerials s f) (caChildren s.cas c) with
    | none => rw [hm] at h; cases h
    | some sub =>
      rw [hm] at h
      cases hf : findRow s.cas c with
      | none => rw [hf] at h; cases h
      | some own =>
        obtain ⟨sub', hsub'⟩ :=
          childSerialsMany_insert_some (childSerials s f) (childSerials (insertCertRow s r) f)
            ih _ _ hm
        rw [hsub']
        exact ⟨_, rfl⟩

/-- Every row of the `for child in children` loop contributes a sublist. -/
theorem childSerialsMany_elem (recC : Nat → Option (List (Option Nat))) :
    ∀ l L, childSerialsMany recC l = some L →
      ∀ row ∈ l, ∃ Lr, recC row.id = some Lr ∧ ∀ a ∈ Lr, a ∈ L := by
  intro l
  induction l with
  | nil => intro L _ row hrow; cases hrow
  | cons c rest ihl =>
    intro L h row hrow
    simp only [childSerialsMany] at h
    cases hx : recC c.id with
    | none => rw [hx] at h; cases h
    | some x =>
      rw [hx] at h
      cases hxs : childSerialsMany recC rest with
      | none => rw [hxs] at h; cases h
      | some xs =>
        rw [hxs] at h
        injection h with h
        subst h
        rcases List.mem_cons.mp hrow with rfl | hmem
        · exact ⟨x, hx, fun a ha => List.mem_append_left _ ha⟩
        · obtain ⟨Lr, hLr, hsub⟩ := ihl _ hxs row hmem
          exact ⟨Lr, hLr, fun a ha => List.mem_append_right _ (hsub a ha)⟩

/-- If `x` lies in the tree below `c` (via `signedby` rows), a successful
`child_serials(c)` contains everything a successful `child_serials(x)` holds. -/
theorem upchain_childSerials_sub (s : Store) {x c : Nat} (hup : UpChain s.cas x c) :
    ∀ fuel L, childSerials s fuel c = some L →
      ∃ f₂ L₂, childSerials s f₂ x = some L₂ ∧ ∀ a ∈ L₂, a ∈ L := by
  induction hup with
  | refl y => intro fuel L h; exact ⟨fuel, L, h, fun a ha => ha⟩
  | @step x₀ p₀ c₀ row hrow hsb _ ih =>
    intro fuel L h
    obtain ⟨f₂, L₂, hL₂, hsubL⟩ := ih fuel L h
    cases f₂ with
    | zero => simp [childSerials] at hL₂
    | succ f₃ =>
      cases hm : childSerialsMany (childSerials s f₃) (caChildren s.cas p₀) with
      | none => simp [childSerials, hm] at hL₂
      | some sub =>
        cases hfp : findRow s.cas p₀ with
        | none => simp [childSerials, hm, hfp] at hL₂
        | some own =>
          simp only [childSerials, hm, hfp, Option.some.injEq] at hL₂
          have hrowmem : row ∈ caChildren s.cas p₀ :=
            List.mem_filter.mpr ⟨List.mem_of_find?_eq_some hrow, by simp [hsb]⟩
          obtain ⟨Lr, hLr, hsubr⟩ := childSerialsMany_elem _ _ _ hm row hrowmem
          have hid : row.id = x₀ := by
            have := List.find?_some hrow
            simpa using this
          rw [hid] at hLr
          refine ⟨f₃, Lr, hLr, fun a ha => ?_⟩
          apply hsubL
          rw [← hL₂]
          exact List.mem_append_left _ (List.mem_append_left _ (hsubr a ha))

/-- C2: the allocator is a pure read — two calls on the same store return the
same integer — and after persisting a certificate entity that carries the
returned serial and is signed by any CA `x` of the same root tree, the next
call on the same CA returns a strictly larger integer. -/
theorem get_serial_repeatable_and_monotone (s : Store) (fuel caId n x : Nat) (newRow : Row)
    (h : get_serial_for_certificate s fuel caId = some n)
    (hser : newRow.serial = some n)
    (hsb : newRow.signedby = some x)
    (hx : ∃ r f₂, rootWalk s.cas fuel caId = some (r, f₂) ∧ UpChain s.cas x r) :
    get_serial_for_certificate s fuel caId = get_serial_for_certificate s fuel caId
    ∧ ∃ m, get_serial_for_certificate (insertCertRow s newRow) fuel caId = some m ∧ n < m := by
  refine ⟨rfl, ?_⟩
  obtain ⟨r, f₂, hrw, hup⟩ := hx
  have hdec := get_serial_eq_rootWalk s fuel caId
  rw [hrw] at hdec
  rw [hdec] at h
  have hdec' := get_serial_eq_rootWalk (insertCertRow s newRow) fuel caId
  have hcas : (insertCertRow s newRow).cas = s.cas := rfl
  rw [hcas, hrw] at hdec'
  rw [hdec']
  cases hf : findRow s.cas r with
  | none => simp [rootCompute, hf] at h
  | some ca =>
    cases hcs : childSerials s f₂ r with
    | none => simp [rootCompute, hf, hcs] at h
    | some sub =>
      have hn : 0 < n := by
        simp only [rootCompute, hf, hcs] at h
        split at h
        · injection h with h; omega
        · injection h with h; omega
      obtain ⟨sub', hcs'⟩ := childSerials_insert_some s newRow f₂ r sub hcs
      have hup' : UpChain (insertCertRow s newRow).cas x r := hup
      obtain ⟨f₃, L₃, hL₃, hsubL⟩ :=
        upchain_childSerials_sub (insertCertRow s newRow) hup' f₂ sub' hcs'
      cases f₃ with
      | zero => simp [childSerials] at hL₃
      | succ f₄ =>
        cases hm : childSerialsMany (childSerials (insertCertRow s newRow) f₄)
            (caChildren (insertCertRow s newRow).cas x) with
        | none => simp [childSerials, hm] at hL₃
        | some sub₀ =>
          cases hfx : findRow (insertCertRow s newRow).cas x with
          | none => simp [childSerials, hm, hfx] at hL₃
          | some ownx =>
            simp only [childSerials, hm, hfx, Option.some.injEq] at hL₃
            have hmemcert : (some n : Option Nat) ∈ certSerials (insertCertRow s newRow) x := by
              apply List.mem_map.mpr
              refine ⟨newRow, ?_, hser⟩
              apply List.mem_filter.mpr
              exact ⟨List.mem_append_right _ (List.mem_cons_self _ _), by simp [hsb]⟩
            have hmemL : (some n : Option Nat) ∈ sub' := by
              apply hsubL
              rw [← hL₃]
              exact List.mem_append_left _ (List.mem_append_right _ hmemcert)
            have hfil : n ∈ ((certSerials (insertCertRow s newRow) r ++ sub').filterMap id).filter
                (fun k => k != 0) := by
              apply List.mem_filter.mpr
              refine ⟨List.mem_filterMap.mpr ⟨some n, List.mem_append_right _ hmemL, rfl⟩, ?_⟩
              simpa using Nat.pos_iff_ne_zero.mp hn
            have hneb : (((certSerials (insertCertRow s newRow) r ++ sub').filterMap id).filter
                (fun k => k != 0)).isEmpty = false := by
              simpa [List.isEmpty_iff] using List.ne_nil_of_mem hfil
            have hf' : findRow (insertCertRow s newRow).cas r = some ca := hf
            refine ⟨(((certSerials (insertCertRow s newRow) r ++ sub').filterMap id).filter
              (fun k => k != 0)).foldl Nat.max 0 + 1, ?_, ?_⟩
            · simp only [rootCompute, hf', hcs', hneb]
              rfl
            · exact Nat.lt_succ_of_le (le_foldl_max hfil)

/-! ## Claims C5-C7: the CSR signing transaction -/

theorem queryExtended_ok_some {s : Store} {fuel : Nat} {rows : List Row} {i : Nat} {r : Row}
    (h : queryExtended s fuel rows i = .ok (some r)) : findRow rows i = some r := by
  cases hfr : findRow rows i with
  | none => simp [queryExtended, hfr] at h
  | some r' =>
    cases hx : cert_extend s fuel r' with
    | error e => simp [queryExtended, hfr, hx] at h
    | ok _ =>
      simp only [queryExtended, hfr, hx] at h
      injection h with h

/-- C5 counterexample: the reads at lines 933/937 extend the matched rows, so
against `wC5Store` — CA 2 present without a private key, target row 9 a
legacy CSR row whose stored CSR is malformed — the call crashes with
`UnboundLocalError` out of `cert_extend` (line 299) instead of raising a
`ValidationErrors`; the store is still unchanged. -/
theorem ca_sign_csr_keyless_counterexample :
    (findRow wC5Store.cas 2 = some wCaNoKey ∧ wCaNoKey.privatekey = none)
    ∧ ca_sign_csr wC5Store wOracles 5 ⟨2, 9, "x1"⟩ = (.error .nameError, wC5Store) := by
  decide

/-- C5 (amended): provided the read-path chain extension succeeds on the CA
row and on the matched target row if any, `ca_sign_csr` against a CA row
that exists but has no (or an empty) private key raises a `ValidationErrors`
and leaves the store unchanged — no certificate entity is inserted. -/
theorem ca_sign_csr_keyless_amended (s : Store) (o : Oracles) (fuel : Nat)
    (d : SignCsrData) (ca : Row)
    (hca : findRow s.cas d.ca_id = some ca)
    (hkey : ca.privatekey = none)
    (hext : errOf (cert_extend s fuel ca) = none)
    (hq : errOf (queryExtended s fuel s.certs d.csr_cert_id) = none) :
    ca_sign_csr s o fuel d = (.error .validation, s) := by
  cases hx : cert_extend s fuel ca with
  | error e => rw [hx] at hext; simp [errOf] at hext
  | ok caExt =>
  have hq1 : queryExtended s fuel s.cas d.ca_id = .ok (some ca) := by
    simp [queryExtended, hca, hx]
  cases hq2 : queryExtended s fuel s.certs d.csr_cert_id with
  | error e => rw [hq2] at hq; simp [errOf] at hq
  | ok q =>
    cases q with
    | none => simp [ca_sign_csr, hq1, hq2, hkey]
    | some r => simp [ca_sign_csr, hq1, hq2, hkey]

/-- C7: a successful `ca_sign_csr` only appends the new certificate row: the
CA store is untouched and the CSR entity's row is still found unchanged. -/
theorem ca_sign_csr_preserves_csr_row (s s' : Store) (o : Oracles) (fuel : Nat)
    (d : SignCsrData) (row : Row)
    (hok : ca_sign_csr s o fuel d = (.ok row, s')) :
    s'.cas = s.cas ∧ s'.certs = s.certs ++ [row]
    ∧ findRow s'.certs d.csr_cert_id = findRow s.certs d.csr_cert_id := by
  cases hq1 : queryExtended s fuel s.cas d.ca_id with
  | error e => simp [ca_sign_csr, hq1] at hok
  | ok caQ =>
  cases hq2 : queryExtended s fuel s.certs d.csr_cert_id with
  | error e => simp [ca_sign_csr, hq1, hq2] at hok
  | ok csrQ =>
  cases caQ with
  | none => simp [ca_sign_csr, hq1, hq2] at hok
  | some ca =>
  cases csrQ with
  | none => simp [ca_sign_csr, hq1, hq2] at hok
  | some csrRow =>
  have hcsr : findRow s.certs d.csr_cert_id = some csrRow := queryExtended_ok_some hq2
  cases hkey : ca.privatekey with
  | none => simp [ca_sign_csr, hq1, hq2, hkey] at hok
  | some cakeyPem =>
  cases hCSR : csrRow.CSR with
  | none => simp [ca_sign_csr, hq1, hq2, hkey, hCSR] at hok
  | some csrPem =>
  cases hreq : pyLoadCertificateRequest csrPem with
  | none => simp [ca_sign_csr, hq1, hq2, hkey, hCSR, hreq] at hok
  | some parsed =>
  obtain ⟨csrSubj, csrPub⟩ := parsed
  cases hcc : ca.certificate with
  | none => simp [ca_sign_csr, hq1, hq2, hkey, hCSR, hreq, hcc] at hok
  | some capem =>
  cases hcacert : pyLoadCcertificate capem with
  | none => simp [ca_sign_csr, hq1, hq2, hkey, hCSR, hreq, hcc, hcacert] at hok
  | some cacert =>
  cases hser : get_serial_for_certificate s fuel d.ca_id with
  | none => simp [ca_sign_csr, hq1, hq2, hkey, hCSR, hreq, hcc, hcacert, hser] at hok
  | some serial =>
  cases hld : load_private_key cakeyPem none with
  | none => simp [ca_sign_csr, hq1, hq2, hkey, hCSR, hreq, hcc, hcacert, hser, hld] at hok
  | some pk =>
  cases hdg : ca.digest_algorithm with
  | none => simp [ca_sign_csr, hq1, hq2, hkey, hCSR, hreq, hcc, hcacert, hser, hld, hdg] at hok
  | some dg =>
  simp only [ca_sign_csr, hq1, hq2, hkey, hCSR, hreq, hcc, hcacert, hser, hld, hdg,
    certificate_do_create] at hok
  split at hok
  · simp at hok
  · split at hok
    · simp at hok
    · rename_i d2 _
      simp only [Prod.mk.injEq, Except.ok.injEq] at hok
      obtain ⟨hrow, hs'⟩ := hok
      subst hrow
      subst hs'
      refine ⟨rfl, rfl, ?_⟩
      simp only [findRow] at hcsr ⊢
      rw [List.find?_append, hcsr]
      rfl

theorem pyLoadCcertificate_cons_ok (c : X509Cert) (bs : List PEMBlock) :
    pyLoadCcertificate ⟨PEMBlock.ok c :: bs⟩ = some c := rfl

/-- C6: a successful `ca_sign_csr(ca_id, csr_cert_id, name)` persists a
certificate of type `CERT_TYPE_INTERNAL`, carrying the CSR entity's private
key unchanged, linked via `signedby` to the CA, with the serial allocated by
`get_serial_for_certificate` for that CA, issuer equal to the CA
certificate's subject, and a validity window of exactly `86400 * 365 * 10`
seconds starting at signing time. -/
theorem ca_sign_csr_signed_certificate_fields (s s' : Store) (o : Oracles) (fuel : Nat)
    (d : SignCsrData) (row ca csrRow : Row) (capem : CertPEM) (cacert : X509Cert)
    (hca : findRow s.cas d.ca_id = some ca)
    (hcsr : findRow s.certs d.csr_cert_id = some csrRow)
    (hcapem : ca.certificate = some capem)
    (hcacert : pyLoadCcertificate capem = some cacert)
    (hok : ca_sign_csr s o fuel d = (.ok row, s')) :
    row.type = CERT_TYPE_INTERNAL
    ∧ row.privatekey = csrRow.privatekey
    ∧ row.signedby = some d.ca_id
    ∧ row.serial = get_serial_for_certificate s fuel d.ca_id
    ∧ ∃ c : X509Cert, row.certificate = some ⟨[.ok c]⟩
        ∧ c.issuer = cacert.subject
        ∧ c.notBefore = o.now
        ∧ c.notAfter - c.notBefore = 86400 * 365 * 10 := by
  have hcaid : ca.id = d.ca_id := by simpa using List.find?_some hca
  cases hx1 : cert_extend s fuel ca with
  | error e =>
    have hq1 : queryExtended s fuel s.cas d.ca_id = .error e := by
      simp [queryExtended, hca, hx1]
    simp [ca_sign_csr, hq1] at hok
  | ok caExt =>
  have hq1 : queryExtended s fuel s.cas d.ca_id = .ok (some ca) := by
    simp [queryExtended, hca, hx1]
  cases hx2 : cert_extend s fuel csrRow with
  | error e =>
    have hq2 : queryExtended s fuel s.certs d.csr_cert_id = .error e := by
      simp [queryExtended, hcsr, hx2]
    simp [ca_sign_csr, hq1, hq2] at hok
  | ok csrExt =>
  have hq2 : queryExtended s fuel s.certs d.csr_cert_id = .ok (some csrRow) := by
    simp [queryExtended, hcsr, hx2]
  cases hkey : ca.privatekey with
  | none => simp [ca_sign_csr, hq1, hq2, hkey] at hok
  | some cakeyPem =>
  cases hCSR : csrRow.CSR with
  | none => simp [ca_sign_csr, hq1, hq2, hkey, hCSR] at hok
  | some csrPem =>
  cases hreq : pyLoadCertificateRequest csrPem with
  | none => simp [ca_sign_csr, hq1, hq2, hkey, hCSR, hreq] at hok
  | some parsed =>
  obtain ⟨csrSubj, csrPub⟩ := parsed
  cases hser : get_serial_for_certificate s fuel d.ca_id with
  | none => simp [ca_sign_csr, hq1, hq2, hkey, hCSR, hreq, hcapem, hcacert, hser] at hok
  | some serial =>
  cases hld : load_private_key cakeyPem none with
  | none => simp [ca_sign_csr, hq1, hq2, hkey, hCSR, hreq, hcapem, hcacert, hser, hld] at hok
  | some pk =>
  cases hdg : ca.digest_algorithm with
  | none =>
    simp [ca_sign_csr, hq1, hq2, hkey, hCSR, hreq, hcapem, hcacert, hser, hld, hdg] at hok
  | some dg =>
  cases hcpk : csrRow.privatekey with
  | none =>
    simp only [ca_sign_csr, hq1, hq2, hkey, hCSR, hreq, hcapem, hcacert, hser, hld, hdg,
      certificate_do_create, certificate__create_certificate, hcpk] at hok
    split at hok <;> simp at hok
  | some kpem =>
    simp only [ca_sign_csr, hq1, hq2, hkey, hCSR, hreq, hcapem, hcacert, hser, hld, hdg,
      certificate_do_create, certificate__create_certificate, hcpk, load_certificate,
      pyLoadCcertificate_cons_ok, applyLoaded] at hok
    split at hok
    · simp at hok
    · injection hok with hrow hs
      injection hrow with hrow
      subst hrow
      refine ⟨by simp [rowOfData], by simp [rowOfData, hcpk], ?_, ?_, ?_⟩
      · simp [rowOfData, hcaid]
      · simp [rowOfData, hser]
      · exact ⟨{ subject := csrSubj, issuer := cacert.subject, serial := serial,
                 pubkey := csrPub, notBefore := o.now,
                 notAfter := o.now + 86400 * 365 * 10, digest := some dg },
               by simp [rowOfData], rfl, rfl, by simp⟩

/-! ## Claim C3: importing a passphrase-protected key -/

/-- C3: a `CERTIFICATE_CREATE_IMPORTED` creation whose private key is
encrypted under the supplied passphrase persists a dict with no passphrase
left in it, whose `privatekey` is an unencrypted PEM key that loads with no
passphrase (pyOpenSSL's `dump_privatekey` without a cipher never encrypts). -/
theorem imported_certificate_strips_passphrase (s s' : Store) (o : Oracles) (fuel : Nat)
    (d : CreateData) (k : PrivKey) (p : String) (row : Row)
    (hkey : d.privatekey = some (.encrypted k p))
    (hpass : d.passphrase = some p) (hp : p ≠ "")
    (hok : certificate_do_create s o fuel .imported d = (.ok row, s')) :
    (∃ d2, certificate__create_imported_certificate d = .ok d2
        ∧ d2.passphrase = none ∧ d2.privatekey = some (.plain k))
    ∧ row.privatekey = some (.plain k)
    ∧ load_private_key (.plain k) none = some k := by
  have hexp : export_private_key (.encrypted k p) (some p) = some (.plain k) := by
    simp [export_private_key, load_private_key, effectivePass, hp, pyDumpPrivatekey]
  cases hstrat : certificate__create_imported_certificate d with
  | error e =>
    simp only [certificate_do_create] at hok
    split at hok
    · simp at hok
    · rw [hstrat] at hok
      simp at hok
  | ok d2 =>
    have hfields : d2.passphrase = none ∧ d2.privatekey = some (.plain k) := by
      cases hcert : d.certificate with
      | none =>
        simp [certificate__create_imported_certificate, certificate__create_certificate,
          hcert] at hstrat
      | some payload =>
        cases hload : load_certificate payload with
        | none =>
          simp only [certificate__create_imported_certificate,
            certificate__create_certificate, hcert, hkey, hpass, hload, hexp,
            Except.ok.injEq] at hstrat
          subst hstrat
          exact ⟨rfl, rfl⟩
        | some info =>
          simp only [certificate__create_imported_certificate,
            certificate__create_certificate, hcert, hkey, hpass, hload, hexp,
            applyLoaded, Except.ok.injEq] at hstrat
          subst hstrat
          exact ⟨rfl, rfl⟩
    simp only [certificate_do_create] at hok
    split at hok
    · simp at hok
    · rw [hstrat] at hok
      injection hok with hrow hs
      injection hrow with hrow
      subst hrow
      exact ⟨⟨d2, rfl, hfields.1, hfields.2⟩, by simp [rowOfData, hfields.2], rfl⟩

/-! ## Field-tracking lemmas for the creation strategies -/

theorem create_certificate_strategy_fields (d d1 : CreateData)
    (h : certificate__create_certificate d = .ok d1) :
    d1.certificate = d.certificate ∧ d1.chain = d.chain := by
  unfold certificate__create_certificate at h
  repeat' split at h
  all_goals first
    | exact Except.noConfusion h
    | (injection h with h; subst h; exact ⟨rfl, rfl⟩)

theorem imported_strategy_chain (d d2 : CreateData)
    (h : certificate__create_imported_certificate d = .ok d2) :
    d2.certificate = d.certificate
    ∧ d2.chain = some (decide (1 < countBlocks d.certificate)) := by
  simp only [certificate__create_imported_certificate] at h
  split at h
  · exact Except.noConfusion h
  · rename_i d1 heq
    obtain ⟨hc, -⟩ := create_certificate_strategy_fields _ _ heq
    repeat' split at h
    all_goals (injection h with h; subst h; simp_all)

theorem csr_strategy_fields (o : Oracles) (d d2 : CreateData)
    (h : certificate__create_csr o d = .ok d2) :
    d2.certificate = d.certificate ∧ d2.chain = d.chain := by
  unfold certificate__create_csr at h
  repeat' split at h
  all_goals first
    | exact Except.noConfusion h
    | (injection h with h; subst h; exact ⟨rfl, rfl⟩)

theorem internal_strategy_fields (s : Store) (o : Oracles) (fuel : Nat) (d d2 : CreateData)
    (h : certificate__create_internal s o fuel d = .ok d2) :
    d2.chain = d.chain ∧ ∃ c, d2.certificate = some ⟨[.ok c]⟩ := by
  unfold certificate__create_internal at h
  repeat' split at h
  all_goals first
    | exact Except.noConfusion h
    | (injection h with h; subst h; exact ⟨rfl, _, rfl⟩)

theorem ca_internal_strategy_fields (o : Oracles) (d d2 : CreateData)
    (h : certificateauthority__create_internal o d = .ok d2) :
    d2.chain = d.chain ∧ d2.serial = some o.rand
    ∧ ∃ c, d2.certificate = some ⟨[.ok c]⟩
        ∧ c.serial = (if o.rand = 0 then 1 else o.rand) := by
  unfold certificateauthority__create_internal at h
  split at h
  · exact Except.noConfusion h
  · rename_i cert key heq
    injection h with h
    subst h
    refine ⟨rfl, rfl, cert, rfl, ?_⟩
    unfold create_self_signed_CA at heq
    split at heq
    · exact Except.noConfusion heq
    · split at heq
      · exact Except.noConfusion heq
      · split at heq
        · exact Except.noConfusion heq
        · injection heq with heq
          injection heq with h1 h2
          subst h1
          cases hr : o.rand <;> simp

theorem ca_intermediate_strategy_fields (s : Store) (o : Oracles) (fuel : Nat)
    (d d2 : CreateData)
    (h : certificateauthority__create_intermediate_ca s o fuel d = .ok d2) :
    d2.chain = d.chain ∧ ∃ c, d2.certificate = some ⟨[.ok c]⟩ := by
  unfold certificateauthority__create_intermediate_ca at h
  repeat' split at h
  all_goals first
    | exact Except.noConfusion h
    | (injection h with h; subst h; exact ⟨rfl, _, rfl⟩)

theorem ca_imported_strategy_chain (d d2 : CreateData)
    (h : certificateauthority__create_imported_ca d = .ok d2) :
    d2.certificate = d.certificate
    ∧ d2.chain = some (decide (1 < countBlocks d.certificate)) := by
  simp only [certificateauthority__create_imported_ca] at h
  repeat' split at h
  all_goals first
    | exact Except.noConfusion h
    | (injection h with h; subst h; simp_all [applyLoaded, countBlocks])

/-! ## Claim C8: the `chain` flag -/

/-- C8 counterexample: a plain `CERTIFICATE_CREATE` with a two-block payload
succeeds but stores `chain = false` — the claimed equivalence
`chain ↔ more than one PEM block` fails for this persisted entity. -/
theorem chain_flag_counterexample :
    ((certificate_do_create wEmptyStore wOracles 5 .create wPlainData2B).1.toOption.map
      (fun r => (r.chain, countBlocks r.certificate))) = some (false, 2) := by decide

/-- C8 (amended): entities created by `CERTIFICATE_CREATE_INTERNAL`,
`CERTIFICATE_CREATE_IMPORTED`, every CA creation strategy, and a certificate
update that supplies a certificate, store `chain = true` iff the payload packs
more than one PEM block; the plain `CERTIFICATE_CREATE` and
`CERTIFICATE_CREATE_CSR` strategies never set `chain`, so those entities store
the column default `false` whatever their payload. -/
theorem chain_flag_amended :
    (∀ (s : Store) (o : Oracles) (fuel : Nat) (ctype : CertCreateType)
        (d : CreateData) (row : Row) (s' : Store), d.chain = none →
        certificate_do_create s o fuel ctype d = (.ok row, s') →
        ((ctype = .create ∨ ctype = .csr) → row.chain = false)
        ∧ ((ctype = .internal ∨ ctype = .imported) →
            (row.chain = true ↔ 1 < countBlocks row.certificate)))
    ∧ (∀ (s : Store) (o : Oracles) (fuel : Nat) (ctype : CACreateType)
        (d : CreateData) (row : Row) (s' : Store), d.chain = none →
        certificateauthority_do_create s o fuel ctype d = (.ok row, s') →
        (row.chain = true ↔ 1 < countBlocks row.certificate))
    ∧ (∀ (s : Store) (fuel i : Nat) (d : UpdateData) (row : Row) (s' : Store),
        d.certificate.isSome = true →
        certificate_do_update s fuel i d = (.ok row, s') →
        (row.chain = true ↔ 1 < countBlocks row.certificate)) := by
  refine ⟨?_, ?_, ?_⟩
  · intro s o fuel ctype d row s' hchain hok
    simp only [certificate_do_create] at hok
    split at hok
    · simp at hok
    · cases ctype with
      | internal =>
        cases hstrat : certificate__create_internal s o fuel d with
        | error e => rw [hstrat] at hok; simp at hok
        | ok d2 =>
          rw [hstrat] at hok
          injection hok with hrow hs
          injection hrow with hrow
          subst hrow
          obtain ⟨hc, c, hcert⟩ := internal_strategy_fields s o fuel d d2 hstrat
          constructor
          · rintro (h | h) <;> cases h
          · intro _
            simp [rowOfData, hc, hchain, hcert, countBlocks, chainColumnDefault]
      | imported =>
        cases hstrat : certificate__create_imported_certificate d with
        | error e => rw [hstrat] at hok; simp at hok
        | ok d2 =>
          rw [hstrat] at hok
          injection hok with hrow hs
          injection hrow with hrow
          subst hrow
          obtain ⟨hcert, hc⟩ := imported_strategy_chain d d2 hstrat
          constructor
          · rintro (h | h) <;> cases h
          · intro _
            simp [rowOfData, hc, hcert]
      | create =>
        cases hstrat : certificate__create_certificate d with
        | error e => rw [hstrat] at hok; simp at hok
        | ok d2 =>
          rw [hstrat] at hok
          injection hok with hrow hs
          injection hrow with hrow
          subst hrow
          obtain ⟨-, hc⟩ := create_certificate_strategy_fields d d2 hstrat
          refine ⟨fun _ => ?_, fun h => by rcases h with h | h <;> cases h⟩
          simp [rowOfData, hc, hchain, chainColumnDefault]
      | csr =>
        cases hstrat : certificate__create_csr o d with
        | error e => rw [hstrat] at hok; simp at hok
        | ok d2 =>
          rw [hstrat] at hok
          injection hok with hrow hs
          injection hrow with hrow
          subst hrow
          obtain ⟨-, hc⟩ := csr_strategy_fields o d d2 hstrat
          refine ⟨fun _ => ?_, fun h => by rcases h with h | h <;> cases h⟩
          simp [rowOfData, hc, hchain, chainColumnDefault]
  · intro s o fuel ctype d row s' hchain hok
    simp only [certificateauthority_do_create] at hok
    split at hok
    · simp at hok
    · cases ctype with
      | internal =>
        cases hstrat : certificateauthority__create_internal o d with
        | error e => rw [hstrat] at hok; simp at hok
        | ok d2 =>
          rw [hstrat] at hok
          injection hok with hrow hs
          injection hrow with hrow
          subst hrow
          obtain ⟨hc, -, c, hcert, -⟩ := ca_internal_strategy_fields o d d2 hstrat
          simp [rowOfData, hc, hchain, hcert, countBlocks, chainColumnDefault]
      | imported =>
        cases hstrat : certificateauthority__create_imported_ca d with
        | error e => rw [hstrat] at hok; simp at hok
        | ok d2 =>
          rw [hstrat] at hok
          injection hok with hrow hs
          injection hrow with hrow
          subst hrow
          obtain ⟨hcert, hc⟩ := ca_imported_strategy_chain d d2 hstrat
          simp [rowOfData, hc, hcert]
      | intermediate =>
        cases hstrat : certificateauthority__create_intermediate_ca s o fuel d with
        | error e => rw [hstrat] at hok; simp at hok
        | ok d2 =>
          rw [hstrat] at hok
          injection hok with hrow hs
          injection hrow with hrow
          subst hrow
          obtain ⟨hc, c, hcert⟩ := ca_intermediate_strategy_fields s o fuel d d2 hstrat
          simp [rowOfData, hc, hchain, hcert, countBlocks, chainColumnDefault]
  · intro s fuel i d row s' hcert hok
    cases hold : findRow s.certs i with
    | none => simp [certificate_do_update, hold] at hok
    | some old =>
    cases hx : cert_extend s fuel old with
    | error e => simp [certificate_do_update, hold, hx] at hok
    | ok ext =>
    cases hc : d.certificate with
    | none => rw [hc] at hcert; cases hcert
    | some c =>
    simp only [certificate_do_update, hold, hx, hc] at hok
    split at hok
    · simp at hok
    · split at hok
      · simp at hok
      · rename_i new1 hphase
        split at hphase
        · exact Except.noConfusion hphase
        · split at hphase <;>
          · injection hphase with hphase
            subst hphase
            split at hok
            · simp at hok
            · injection hok with hrow hs
              injection hrow with hrow
              subst hrow
              simp [countBlocks, applyLoadedRow]

/-! ## Claim C10: internal CA serial -/

/-- C10: a `CA_CREATE_INTERNAL` creation stores the 24-bit random draw as the
CA serial regardless of the input fields (two creations with identical inputs
but different draws store different serials), and the serial embedded in the
self-signed certificate is the stored serial, except that a stored 0 embeds 1
(`serial or 0o1`). -/
theorem internal_ca_serial_random (s s' : Store) (o : Oracles) (fuel : Nat)
    (d : CreateData) (row : Row)
    (hrand : o.rand < 2 ^ 24)
    (hok : certificateauthority_do_create s o fuel .internal d = (.ok row, s')) :
    row.serial = some o.rand
    ∧ o.rand < 2 ^ 24
    ∧ (∃ c, row.certificate = some ⟨[.ok c]⟩
        ∧ c.serial = (if o.rand = 0 then 1 else o.rand))
    ∧ (∀ (d' : CreateData) (row' : Row) (s'' : Store),
        certificateauthority_do_create s o fuel .internal d' = (.ok row', s'') →
        row'.serial = row.serial) := by
  have main : ∀ (dx : CreateData) (rx : Row) (sx : Store),
      certificateauthority_do_create s o fuel .internal dx = (.ok rx, sx) →
      rx.serial = some o.rand
      ∧ ∃ c, rx.certificate = some ⟨[.ok c]⟩
          ∧ c.serial = (if o.rand = 0 then 1 else o.rand) := by
    intro dx rx sx hx
    simp only [certificateauthority_do_create] at hx
    split at hx
    · simp at hx
    · cases hstrat : certificateauthority__create_internal o dx with
      | error e => rw [hstrat] at hx; simp at hx
      | ok d2 =>
        rw [hstrat] at hx
        injection hx with hrow hs
        injection hrow with hrow
        subst hrow
        obtain ⟨-, hser, c, hcert, hcser⟩ := ca_internal_strategy_fields o dx d2 hstrat
        exact ⟨by simp [rowOfData, hser], c, by simp [rowOfData, hcert], hcser⟩
  obtain ⟨h1, h2⟩ := main d row s' hok
  refine ⟨h1, hrand, h2, fun d' row' s'' h' => ?_⟩
  rw [(main d' row' s'' h').1, h1]

/-! ## Claim C9: the certificate update rules -/

/-- C9 counterexample: `do_update` reads the row through `cert_extend`
(`_get_instance`, line 685), so on `wC9Store` a name-only rename of the
legacy CSR row 9 (malformed stored CSR) crashes with `UnboundLocalError`
instead of being permitted, and supplying a certificate for the non-CSR
legacy row 10 (`chain` set, no stored payload) crashes with `TypeError` at
`findall` (line 254) instead of raising a validation error. -/
theorem certificate_update_counterexample :
    certificate_do_update wC9Store 5 9 { name := some "newname" }
      = (.error .nameError, wC9Store)
    ∧ (findRow wC9Store.certs 10 = some wChainNullRow
        ∧ wChainNullRow.type ≠ CERT_TYPE_CSR
        ∧ certificate_do_update wC9Store 5 10 wFulfillData
          = (.error .typeError, wC9Store)) := by decide

/-- C9 (amended): provided the read-path chain extension of the stored row
succeeds, `certificate.update` rejects a supplied certificate (validation
error, row unchanged) unless the row is a pending CSR; a fulfilled CSR is
persisted with type `CERT_TYPE_EXISTING`; and a name-only update goes
through subject only to name validation. -/
theorem certificate_update_amended :
    (∀ (s : Store) (fuel i : Nat) (d : UpdateData) (old : Row) (c : CertPEM),
        findRow s.certs i = some old →
        errOf (cert_extend s fuel old) = none →
        d.certificate = some c →
        old.type ≠ CERT_TYPE_CSR →
        certificate_do_update s fuel i d = (.error .validation, s))
    ∧ (∀ (s : Store) (fuel i : Nat) (d : UpdateData) (old row : Row) (s' : Store),
        findRow s.certs i = some old → d.certificate.isSome = true →
        old.type = CERT_TYPE_CSR →
        certificate_do_update s fuel i d = (.ok row, s') →
        row.type = CERT_TYPE_EXISTING)
    ∧ (∀ (s : Store) (fuel i : Nat) (d : UpdateData) (old : Row),
        findRow s.certs i = some old →
        errOf (cert_extend s fuel old) = none →
        d.certificate = none →
        (∀ nm, d.name = some nm → nm ≠ old.name →
          validate_cert_name_ok s.certs nm = true) →
        ∃ row s', certificate_do_update s fuel i d = (.ok row, s')
          ∧ row.name = d.name.getD old.name) := by
  refine ⟨?_, ?_, ?_⟩
  · intro s fuel i d old c hold hext hc htype
    have hbne : (old.type != CERT_TYPE_CSR) = true := by simpa using htype
    cases hx : cert_extend s fuel old with
    | error e => rw [hx] at hext; simp [errOf] at hext
    | ok ext => simp [certificate_do_update, hold, hx, hc, hbne]
  · intro s fuel i d old row s' hold hcert htype hok
    cases hc : d.certificate with
    | none => rw [hc] at hcert; cases hcert
    | some c =>
    cases hx : cert_extend s fuel old with
    | error e => simp [certificate_do_update, hold, hx] at hok
    | ok ext =>
    simp only [certificate_do_update, hold, hx, hc] at hok
    split at hok
    · simp at hok
    · split at hok
      · simp at hok
      · rename_i new1 hphase
        split at hphase
        · exact Except.noConfusion hphase
        · split at hphase <;>
          · injection hphase with hphase
            subst hphase
            split at hok
            · simp at hok
            · injection hok with hrow hs
              injection hrow with hrow
              subst hrow
              simp [applyLoadedRow]
  · intro s fuel i d old hold hext hnone hname
    cases hx : cert_extend s fuel old with
    | error e => rw [hx] at hext; simp [errOf] at hext
    | ok ext =>
    have h1 : (d.certificate.isSome && (old.type != CERT_TYPE_CSR)) = false := by
      simp [hnone]
    have h2 : (((d.name.getD old.name) != old.name)
        && !validate_cert_name_ok s.certs (d.name.getD old.name)) = false := by
      cases hn : d.name with
      | none => simp
      | some nm =>
        by_cases hne : nm = old.name
        · simp [hne]
        · simp [hname nm hn hne]
    have hrun : certificate_do_update s fuel i d =
        (Except.ok
          { old with
            name := d.name.getD old.name,
            san := pyJoinSan (.fromList (pySplit old.san)) },
         { s with
           certs := replaceRow s.certs i
             { old with
               name := d.name.getD old.name,
               san := pyJoinSan (.fromList (pySplit old.san)) } }) := by
      simp only [certificate_do_update, hold, hx, hnone, h1, Option.isSome_none,
        Bool.false_and, Bool.false_eq_true, if_false, h2]
    exact ⟨_, _, hrun, by simp⟩

/-! ## Claim C4: `cert_extend` on malformed legacy rows -/

/-- C4 (code bug): `cert_extend` on a CSR-typed row whose CSR field is
malformed raises `UnboundLocalError` — the CSR load failure is caught and
logged, but `csr_obj` is then read unassigned at `obj = csr_obj` — so
extension does abort for such a malformed legacy row, while other malformed
fields (certificate, private key on a non-CSR row) do degrade gracefully. -/
theorem cert_extend_csr_unbound_local :
    errOf (cert_extend wEmptyStore 5 wBadCsrRow) = some .nameError
    ∧ ((cert_extend wEmptyStore 5 wBadPayloadRow).toOption.map
        (fun e => (e.chain_list, e.privatekey, e.DN)))
      = some ([], wBadPayloadRow.privatekey, none) := by decide

/-! ## Witnesses for claims C3, C5-C10 -/

/-- Witness for C3: importing with an encrypted key and its passphrase stores
an unencrypted key and no passphrase. -/
theorem imported_certificate_strips_passphrase_witness :
    (∃ d2, certificate__create_imported_certificate wImportedData = .ok d2
        ∧ d2.passphrase = none ∧ d2.privatekey = some (.plain wImpKey))
    ∧ wImportedRow.privatekey = some (.plain wImpKey)
    ∧ load_private_key (.plain wImpKey) none = some wImpKey :=
  imported_certificate_strips_passphrase wEmptyStore wImportResult.2 wOracles 5
    wImportedData wImpKey "pw" wImportedRow (by decide) (by decide) (by decide) (by decide)

/-- Witness for the amended C5 on `wNoKeyStore`: CA 2 exists without a key,
every matched row extends cleanly, and signing is rejected with the store
unchanged. -/
theorem ca_sign_csr_keyless_amended_witness :
    ca_sign_csr wNoKeyStore wOracles 5 ⟨2, 1, "x1"⟩ = (.error .validation, wNoKeyStore) :=
  ca_sign_csr_keyless_amended wNoKeyStore wOracles 5 ⟨2, 1, "x1"⟩ wCaNoKey
    (by decide) (by decide) (by decide) (by decide)

/-- Witness for C6 on `wSignStore`. -/
theorem ca_sign_csr_signed_certificate_fields_witness :
    wSignedRow.type = CERT_TYPE_INTERNAL
    ∧ wSignedRow.privatekey = wCsrRow.privatekey
    ∧ wSignedRow.signedby = some wSignData.ca_id
    ∧ wSignedRow.serial = get_serial_for_certificate wSignStore 5 wSignData.ca_id
    ∧ ∃ c : X509Cert, wSignedRow.certificate = some ⟨[.ok c]⟩
        ∧ c.issuer = wCaCert.subject
        ∧ c.notBefore = wOracles.now
        ∧ c.notAfter - c.notBefore = 86400 * 365 * 10 :=
  ca_sign_csr_signed_certificate_fields wSignStore wSignResult.2 wOracles 5 wSignData
    wSignedRow wCaRow wCsrRow ⟨[.ok wCaCert]⟩ wCaCert
    (by decide) (by decide) (by decide) (by decide) (by decide)

/-- Witness for C7 on `wSignStore`. -/
theorem ca_sign_csr_preserves_csr_row_witness :
    wSignResult.2.cas = wSignStore.cas
    ∧ wSignResult.2.certs = wSignStore.certs ++ [wSignedRow]
    ∧ findRow wSignResult.2.certs wSignData.csr_cert_id
        = findRow wSignStore.certs wSignData.csr_cert_id :=
  ca_sign_csr_preserves_csr_row wSignStore wSignResult.2 wOracles 5 wSignData wSignedRow
    (by decide)

/-- Witness for the amended C8, one instance per conjunct: an imported
certificate, an internal CA, and a CSR-fulfilling update. -/
theorem chain_flag_amended_witness :
    (((CertCreateType.imported = .create ∨ CertCreateType.imported = .csr) →
        wImportedRow.chain = false)
      ∧ ((CertCreateType.imported = .internal ∨ CertCreateType.imported = .imported) →
        (wImportedRow.chain = true ↔ 1 < countBlocks wImportedRow.certificate)))
    ∧ (wCaInternalRow.chain = true ↔ 1 < countBlocks wCaInternalRow.certificate)
    ∧ (wUpdatedRow.chain = true ↔ 1 < countBlocks wUpdatedRow.certificate) :=
  ⟨chain_flag_amended.1 wEmptyStore wOracles 5 .imported wImportedData wImportedRow
      wImportResult.2 (by decide) (by decide),
   chain_flag_amended.2.1 wEmptyStore wOracles 5 .internal wCaData wCaInternalRow
      wCaInternalResult.2 (by decide) (by decide),
   chain_flag_amended.2.2 wUpdStore 5 1 wFulfillData wUpdatedRow wUpdResult.2
      (by decide) (by decide)⟩

/-- Witness for the amended C9: rejection of a certificate on a non-CSR row
that extends cleanly, CSR fulfillment flipping the type, and a plain rename. -/
theorem certificate_update_amended_witness :
    certificate_do_update wUpdStore2 5 2 wFulfillData = (.error .validation, wUpdStore2)
    ∧ wUpdatedRow.type = CERT_TYPE_EXISTING
    ∧ (∃ row s', certificate_do_update wUpdStore2 5 2 { name := some "renamed" } = (.ok row, s')
        ∧ row.name = (some "renamed").getD wPlainRow.name) :=
  ⟨certificate_update_amended.1 wUpdStore2 5 2 wFulfillData wPlainRow ⟨[.ok wFulfillCert]⟩
      (by decide) (by decide) (by decide) (by decide),
   certificate_update_amended.2.1 wUpdStore 5 1 wFulfillData wCsrRow wUpdatedRow wUpdResult.2
      (by decide) (by decide) (by decide) (by decide),
   certificate_update_amended.2.2 wUpdStore2 5 2 { name := some "renamed" } wPlainRow
      (by decide) (by decide) (by decide)
      (by intro nm h1 h2; injection h1 with h1; subst h1; decide)⟩

/-- Witness for C10 on `wOracles` (`rand = 5`). -/
theorem internal_ca_serial_random_witness :
    wCaInternalRow.serial = some wOracles.rand
    ∧ wOracles.rand < 2 ^ 24
    ∧ (∃ c, wCaInternalRow.certificate = some ⟨[.ok c]⟩
        ∧ c.serial = (if wOracles.rand = 0 then 1 else wOracles.rand)) :=
  ⟨(internal_ca_serial_random wEmptyStore wCaInternalResult.2 wOracles 5 wCaData
      wCaInternalRow (by decide) (by decide)).1,
   (internal_ca_serial_random wEmptyStore wCaInternalResult.2 wOracles 5 wCaData
      wCaInternalRow (by decide) (by decide)).2.1,
   (internal_ca_serial_random wEmptyStore wCaInternalResult.2 wOracles 5 wCaData
      wCaInternalRow (by decide) (by decide)).2.2.1⟩

/-- Witness for C2 on `sampleStore`: the allocator answers 11 for CA 2, and
after inserting a certificate carrying serial 11 signed by CA 2, the next
answer is strictly larger. -/
theorem get_serial_repeatable_and_monotone_witness :
    get_serial_for_certificate sampleStore 5 2 = some 11
    ∧ (get_serial_for_certificate sampleStore 5 2 = get_serial_for_certificate sampleStore 5 2
      ∧ ∃ m, get_serial_for_certificate (insertCertRow sampleStore sampleIssuedCert) 5 2 = some m
          ∧ 11 < m) :=
  ⟨by decide,
   get_serial_repeatable_and_monotone sampleStore 5 2 11 2 sampleIssuedCert
     (by decide) (by decide) (by decide)
     ⟨1, 4, by decide, UpChain.step sampleInterCA (by decide) (by decide) (UpChain.refl 1)⟩⟩

end FreenasCrypto
